import Mathlib

/-!
Shallow embedding of the core of the zdb repository: the meadowdb versioned
table reader (`src/meadowdb/reader.py`) and the meadowgrid coordinator
(`src/meadowgrid/coordinator.py`), together with theorems settling the
frozen claims about the natural-language specification.

Conventions: Python strings are Lean `String`s; Python ints are Lean `Int`;
Python dicts are association lists in insertion order; Python deques are
Lean lists (append at the tail, pop at the head); functions that can raise
return `Except String` or pair the mutated state with an error option,
mirroring the fact that Python exceptions propagate after in-place mutation.
-/

namespace Meadowdb

/-- Literals usable in comparisons (`COMPARISON_LITERAL_TYPE` in reader.py:
str, datetime.datetime, int, float; floats are not needed by any claim and
datetimes are represented by their rendered string). -/
inductive Lit where
  | str (v : String)
  | dtime (v : String)
  | int (v : Int)
deriving DecidableEq, Repr

/-- Comparison operators of `MdbComputedBoolColumnOpArg` (stored as strings
in the source; the inductive covers exactly the strings the builder and
`__invert__` handle). -/
inductive CmpOp where
  | eq | ne | gt | le | lt | ge | between | notBetween | inOp | notIn
deriving DecidableEq, Repr

/-- Renders a `CmpOp` as the operator string stored in the source. -/
def CmpOp.render : CmpOp → String
  | .eq => "="
  | .ne => "!="
  | .gt => ">"
  | .le => "<="
  | .lt => "<"
  | .ge => ">="
  | .between => "BETWEEN"
  | .notBetween => "NOT BETWEEN"
  | .inOp => "IN"
  | .notIn => "NOT IN"

/-- The op-inverse table of `MdbComputedBoolColumnOpArg.__invert__`
(reader.py lines 541-563). -/
def CmpOp.inverse : CmpOp → CmpOp
  | .eq => .ne
  | .ne => .eq
  | .gt => .le
  | .le => .gt
  | .lt => .ge
  | .ge => .lt
  | .between => .notBetween
  | .notBetween => .between
  | .inOp => .notIn
  | .notIn => .inOp

/-- Argument of a comparison: a single literal, a pair (BETWEEN), or a list
(IN), matching the three construction forms in `MdbColumn`. -/
inductive CmpArg where
  | single (a : Lit)
  | pair (a b : Lit)
  | args (l : List Lit)
deriving DecidableEq, Repr

/-- The binary boolean operator of `MdbComputedBoolColumnOpColumn`. -/
inductive BoolOp where
  | and | or
deriving DecidableEq, Repr

/-- Renders a `BoolOp` as the string stored in the source. -/
def BoolOp.render : BoolOp → String
  | .and => "AND"
  | .or => "OR"

/-- The predicate tree: `opArg` embeds `MdbComputedBoolColumnOpArg`
(it keeps the version number of the originating `MdbTable` in place of the
source's back reference, following the design note that the reference is
used solely to validate version consistency) and `opCol` embeds
`MdbComputedBoolColumnOpColumn`. -/
inductive MdbBool where
  | opArg (tableVersion : Int) (columnName : String) (op : CmpOp) (arg : CmpArg)
  | opCol (a b : MdbBool) (op : BoolOp)
deriving DecidableEq, Repr

/-- Negation: `__invert__` of both predicate classes.  A leaf swaps its
comparator via the op-inverse table keeping table, column and argument; a
binary node negates both children and swaps AND with OR. -/
def MdbBool.invert : MdbBool → MdbBool
  | .opArg v c op a => .opArg v c op.inverse a
  | .opCol a b .and => .opCol a.invert b.invert .or
  | .opCol a b .or => .opCol a.invert b.invert .and

/-- The placeholder spliced into generated SQL in place of the per-segment
relation name (`_table_name_placeholder`). -/
def tableNamePlaceholder : String := "[!!__to_be_replaced_table_name__!!]"

/-- The reserved indicator column (`_indicator_column_name`). -/
def indicatorColumnName : String := "__mdb_reserved_indicator__"

/-- Renders one literal (`_single_arg_to_string`): strings and datetimes are
single-quoted, numbers are printed bare. -/
def singleArgToString : Lit → String
  | .str v => "\x27" ++ v ++ "\x27"
  | .dtime v => "\x27" ++ v ++ "\x27"
  | .int v => toString v

/-- Renders a predicate as a WHERE fragment
(`_construct_where_clause` of both predicate classes): a leaf checks that
its table version matches the outer table's and renders
`(placeholder."col" op args)`; a binary node renders `(L op R)`.  Arity
mismatches between the operator and the stored argument would raise in
Python and are returned as errors. -/
def MdbBool.constructWhereClause (outerVersion : Int) : MdbBool → Except String String
  | .opArg v c op a =>
    if v ≠ outerVersion then
      .error "Using a series from a different table in a row selector is not supported"
    else
      match op, a with
      | .between, .pair x y =>
        .ok ("(" ++ tableNamePlaceholder ++ ".\"" ++ c ++ "\" " ++ op.render ++ " "
          ++ singleArgToString x ++ " AND " ++ singleArgToString y ++ ")")
      | .notBetween, .pair x y =>
        .ok ("(" ++ tableNamePlaceholder ++ ".\"" ++ c ++ "\" " ++ op.render ++ " "
          ++ singleArgToString x ++ " AND " ++ singleArgToString y ++ ")")
      | .inOp, .args l =>
        .ok ("(" ++ tableNamePlaceholder ++ ".\"" ++ c ++ "\" " ++ op.render ++ " ("
          ++ String.intercalate ", " (l.map singleArgToString) ++ "))")
      | .notIn, .args l =>
        .ok ("(" ++ tableNamePlaceholder ++ ".\"" ++ c ++ "\" " ++ op.render ++ " ("
          ++ String.intercalate ", " (l.map singleArgToString) ++ "))")
      | _, .single x =>
        .ok ("(" ++ tableNamePlaceholder ++ ".\"" ++ c ++ "\" " ++ op.render ++ " "
          ++ singleArgToString x ++ ")")
      | _, _ => .error "argument arity does not match operator"
  | .opCol a b op => do
    let sa ← a.constructWhereClause outerVersion
    let sb ← b.constructWhereClause outerVersion
    .ok ("(" ++ sa ++ " " ++ op.render ++ " " ++ sb ++ ")")

/-- A query operation recorded on an `MdbTable` (`_SelectColumnsOp` /
`_SelectRowsOp`). -/
inductive Op where
  | selectColumns (columnsToSelect : List String)
  | selectRows (filterColumn : MdbBool)
deriving DecidableEq, Repr

/-- Extracts the column lists of the `_SelectColumnsOp`s, in order. -/
def columnArgs (ops : List Op) : List (List String) :=
  ops.filterMap fun op => match op with
    | .selectColumns cols => some cols
    | _ => none

/-- Extracts the predicates of the `_SelectRowsOp`s, in order. -/
def rowArgs (ops : List Op) : List MdbBool :=
  ops.filterMap fun op => match op with
    | .selectRows p => some p
    | _ => none

/-- The subset-checking fold of `MdbTable._construct_sql` (lines 377-388):
starting from the first column list, each later list must contain no column
outside the running list, else a ValueError naming the offending columns is
raised; the running list becomes the later list. -/
def foldColumnArgs (curr : List String) : List (List String) → Except String (List String)
  | [] => .ok curr
  | next :: rest =>
    let columnsNotPreviouslySelected := next.filter (fun a => ¬ a ∈ curr)
    if columnsNotPreviouslySelected.length > 0 then
      .error ("Tried to select columns "
        ++ String.intercalate ", " columnsNotPreviouslySelected
        ++ " after already filtering them out")
    else
      foldColumnArgs next rest

/-- The conjunction fold of `MdbTable._construct_sql` (lines 400-404): the
row predicates are folded into a single AND tree.  In the source the result
is bound to `curr_filter_column` and then never used. -/
def foldRowArgs (curr : MdbBool) : List MdbBool → MdbBool
  | [] => curr
  | next :: rest => foldRowArgs (MdbBool.opCol curr next .and) rest

/-- Embeds `MdbTable._construct_sql`: compiles the recorded ops into a
select clause and a where clause (both containing the relation-name
placeholder).  Note that, as in the source (line 405), the where clause is
rendered from `row_args[0]` alone; the conjunction bound to
`curr_filter_column` is discarded. -/
def constructSql (versionNumber : Int) (ops : List Op) : Except String (String × String) := do
  let selectClause ← match columnArgs ops with
    | [] => pure ("SELECT " ++ tableNamePlaceholder ++ ".*")
    | c :: cs => do
      let currColumns ← foldColumnArgs c cs
      pure ("SELECT " ++ String.intercalate ", "
        (currColumns.map (fun col => tableNamePlaceholder ++ ".\"" ++ col ++ "\"")))
  let whereClause ← match rowArgs ops with
    | [] => pure "TRUE"
    | r :: rs =>
      let _currFilterColumn := foldRowArgs r rs
      r.constructWhereClause versionNumber
  pure (selectClause, whereClause)

/-- A tagged entry of a table version's data-file list.  `DataFileEntry`
lives in `meadowdb/readerwriter_shared.py`, which is not under src/; the
shape is fully determined by its uses in reader.py and the spec: a
`data_file_type` tag among write/delete/delete_all, with a `data_filename`
for the first two. -/
inductive DataFileEntry where
  | write (dataFilename : String)
  | delete (dataFilename : String)
  | deleteAll
deriving DecidableEq, Repr

/-- Modelled from the spec: `TableSchema` (in `readerwriter_shared.py`, not
under src/) is a configuration carrying an optional ordered list of
deduplication keys; reader.py reads only its `deduplication_keys` field,
which can be None. -/
structure TableSchema where
  deduplicationKeys : Option (List String) := none
deriving DecidableEq, Repr

/-- An in-memory tabular value standing for a `pd.DataFrame`: an ordered
column list and rows of literals. -/
structure Table where
  cols : List String
  rows : List (List Lit)
deriving DecidableEq, Repr

/-- The empty `pd.DataFrame()`. -/
def Table.empty : Table := ⟨[], []⟩

/-- Models `pd.concat([a, b])` for the accumulators in `to_pd`: an empty
frame contributes nothing (and its empty column set is replaced by the
other frame's). -/
def pdConcat (a b : Table) : Table :=
  if a.rows.length = 0 then b
  else if b.rows.length = 0 then a
  else ⟨a.cols, a.rows ++ b.rows⟩

/-- The value of row `r` (laid out by column list `cols`) at column `c`. -/
def valueAt (cols : List String) (r : List Lit) (c : String) : Lit :=
  (((cols.indexOf? c).bind fun i => r.get? i)).getD (.int 0)

/-- Models `df[cols]`: projection to the named columns. -/
def Table.project (t : Table) (columns : List String) : Table :=
  ⟨columns, t.rows.map fun r => columns.map (valueAt t.cols r)⟩

/-- Models tagging a frame with the reserved indicator column set to 1
(`assign(**{indicator: 1})` / `d[indicator] = 1`). -/
def Table.assignIndicator (t : Table) : Table :=
  ⟨t.cols ++ [indicatorColumnName], t.rows.map fun r => r ++ [.int 1]⟩

/-- Models `sorted(columns)` for the delete-column-set comparison. -/
def sortedCols (l : List String) : List String :=
  l.mergeSort (fun a b => a ≤ b)

/-- The resolved table value (`MdbTable.__init__`): version number, schema,
ordered data-file list, and the recorded query ops. -/
structure MdbTable where
  versionNumber : Int
  tableSchema : TableSchema
  dataList : List DataFileEntry
  ops : List Op
deriving Repr

/-- The query engine collaborator (duckdb, out of scope per the spec): given
the parquet contents registered for the current segment, the accumulated
`ds` (deletes) and `pks` (deduplication keys seen) relations, and the
generated SQL text, it returns the materialized partition.  All three
relations are passed in every branch for uniformity; the SQL text decides
which ones a faithful engine consults. -/
def QueryEngine : Type := Table → Table → Table → String → Table

/-- One iteration body plus loop of `MdbTable.to_pd` (reader.py lines
242-349), walking the already-reversed data list (newest first) with the
`enumerate` index `i`, the `deduplication_keys_seen` accumulator `pks` and
the `deletes` accumulator `ds`.  Returns the partition list in newest-first
order; `delete_all` stops the iteration; a delete over a different column
set raises. -/
def toPdWalk (engine : QueryEngine) (files : String → Table)
    (deduplicationKeys : Option (List String)) (selectClause whereClause : String) :
    Nat → List DataFileEntry → Table → Table → Except String (List Table)
  | _, [], _, _ => .ok []
  | i, .write dataFilename :: rest, pks, ds =>
    let tableName := "t" ++ toString i
    let sql :=
      if pks.rows.length = 0 then
        if ds.rows.length = 0 then
          selectClause.replace tableNamePlaceholder tableName
            ++ " FROM " ++ tableName ++ " WHERE "
            ++ whereClause.replace tableNamePlaceholder tableName
        else
          selectClause.replace tableNamePlaceholder tableName
            ++ " FROM " ++ tableName ++ " LEFT JOIN ds ON "
            ++ String.intercalate " AND "
              ((ds.cols.filter (fun c => c ≠ indicatorColumnName)).map
                (fun c => tableName ++ "." ++ c ++ " = ds." ++ c))
            ++ " WHERE ds." ++ indicatorColumnName ++ " IS NULL AND "
            ++ whereClause.replace tableNamePlaceholder tableName
      else
        if ds.rows.length = 0 then
          selectClause.replace tableNamePlaceholder tableName
            ++ " FROM " ++ tableName ++ " LEFT JOIN pks ON "
            ++ String.intercalate " AND "
              ((deduplicationKeys.getD []).map
                (fun c => tableName ++ "." ++ c ++ " = pks." ++ c))
            ++ " WHERE pks." ++ indicatorColumnName ++ " IS NULL AND "
            ++ whereClause.replace tableNamePlaceholder tableName
        else
          selectClause.replace tableNamePlaceholder tableName
            ++ " FROM " ++ tableName ++ " LEFT JOIN ds ON "
            ++ String.intercalate " AND "
              ((ds.cols.filter (fun c => c ≠ indicatorColumnName)).map
                (fun c => tableName ++ "." ++ c ++ " = ds." ++ c))
            ++ " LEFT JOIN pks ON "
            ++ String.intercalate " AND "
              ((deduplicationKeys.getD []).map
                (fun c => tableName ++ "." ++ c ++ " = pks." ++ c))
            ++ " WHERE ds." ++ indicatorColumnName ++ " IS NULL AND "
            ++ "pks." ++ indicatorColumnName ++ " IS NULL AND "
            ++ whereClause.replace tableNamePlaceholder tableName
    let df := engine (files dataFilename) ds pks sql
    let pks' :=
      match deduplicationKeys with
      | some keys => pdConcat pks ((df.project keys).assignIndicator)
      | none => pks
    (toPdWalk engine files deduplicationKeys selectClause whereClause
        (i + 1) rest pks' ds).map (fun parts => df :: parts)
  | i, .delete dataFilename :: rest, pks, ds =>
    let d := (files dataFilename).assignIndicator
    if ds.rows.length > 0 ∧ sortedCols ds.cols ≠ sortedCols d.cols then
      .error "Deletes on different sets of columns is not supported"
    else
      toPdWalk engine files deduplicationKeys selectClause whereClause
        (i + 1) rest pks (pdConcat ds d)
  | _, .deleteAll :: _, _, _ => .ok []

/-- Models the final `pd.concat(partition_results, ignore_index=True)`. -/
def pdConcatAll : List Table → Table
  | [] => Table.empty
  | p :: ps => ⟨p.cols, ((p :: ps).map Table.rows).flatten⟩

/-- Embeds `MdbTable.to_pd`: compile the ops to SQL, iterate the data list
newest-first accumulating deletes and deduplication keys, then restore
oldest-first order and concatenate.  The duckdb engine and the parquet
contents are collaborators, passed as functions. -/
def toPd (engine : QueryEngine) (files : String → Table) (t : MdbTable) :
    Except String Table := do
  let (selectClause, whereClause) ← constructSql t.versionNumber t.ops
  let parts ← toPdWalk engine files t.tableSchema.deduplicationKeys
    selectClause whereClause 0 t.dataList.reverse Table.empty Table.empty
  let partitionResults := parts.reverse
  match partitionResults with
  | [] => .ok Table.empty
  | _ => .ok (pdConcatAll partitionResults)

/-- A table version record (`TableVersion` lives outside src/; the fields
are determined by `read`'s uses and the spec: version_number,
table_schema_filename, data_list_filename). -/
structure TableVersion where
  versionNumber : Int
  tableSchemaFilename : Option String
  dataListFilename : String
deriving DecidableEq, Repr

/-- The registry and storage collaborators of `read`
(`TableVersionsClientLocal.get_current_table_version` / `prepend_data_dir`
plus `pd.read_pickle` for data lists and schemas), passed as functions. -/
structure TableVersionsClient where
  getCurrentTableVersion : String → String → Option Int → Option TableVersion
  prependDataDir : String → String
  readDataList : String → List DataFileEntry
  readSchema : String → TableSchema

/-- The canonical parent userspace name
(`meadowdb.connection.prod_userspace_name`). -/
def prodUserspaceName : String := "prod"

/-- Embeds `_prepend_data_dir_data_file_entries`: maps `prepend_data_dir`
over the filenames of write and delete entries, passing `delete_all`
through. -/
def prependDataDirDataFileEntries (client : TableVersionsClient)
    (dataList : List DataFileEntry) : List DataFileEntry :=
  dataList.map fun d =>
    match d with
    | .deleteAll => .deleteAll
    | .write f => .write (client.prependDataDir f)
    | .delete f => .delete (client.prependDataDir f)

/-- Embeds `read` (reader.py lines 32-121): resolve the requested version;
for prod, use it directly (error if absent); otherwise layer prod below the
userspace version (error only when both are absent), take the schema from
the userspace version, falling back on prod's, falling back on the default,
and the version number as the maximum present (starting from the -1
sentinel). -/
def read (client : TableVersionsClient) (userspace tableName : String)
    (maxVersionNumber : Option Int) : Except String MdbTable := do
  let tableVersion := client.getCurrentTableVersion userspace tableName maxVersionNumber
  let resolved : Option String × List String × Int ←
    if userspace = prodUserspaceName then
      match tableVersion with
      | none =>
        Except.error ("Requested table " ++ userspace ++ "/" ++ tableName
          ++ " does not exist")
      | some tv =>
        Except.ok (tv.tableSchemaFilename, [tv.dataListFilename], tv.versionNumber)
    else
      let prodTableVersion :=
        client.getCurrentTableVersion prodUserspaceName tableName maxVersionNumber
      if tableVersion.isNone ∧ prodTableVersion.isNone then
        Except.error ("Requested table " ++ userspace ++ "/" ++ tableName
          ++ " does not exist and " ++ prodUserspaceName ++ "/" ++ tableName
          ++ " also does not exist")
      else
        let tableSchemaFilename :=
          match tableVersion with
          | some tv =>
            match tv.tableSchemaFilename with
            | some f => some f
            | none =>
              match prodTableVersion with
              | some ptv => ptv.tableSchemaFilename
              | none => none
          | none =>
            match prodTableVersion with
            | some ptv => ptv.tableSchemaFilename
            | none => none
        let afterProd : List String × Int :=
          match prodTableVersion with
          | some ptv => ([ptv.dataListFilename], ptv.versionNumber)
          | none => ([], -1)
        let afterUserspace : List String × Int :=
          match tableVersion with
          | some tv =>
            (afterProd.1 ++ [tv.dataListFilename], max afterProd.2 tv.versionNumber)
          | none => afterProd
        Except.ok (tableSchemaFilename, afterUserspace.1, afterUserspace.2)
  let tableSchema :=
    match resolved.1 with
    | some f => client.readSchema (client.prependDataDir f)
    | none => TableSchema.mk none
  Except.ok ⟨resolved.2.2, tableSchema,
    (resolved.2.1.map fun f =>
      prependDataDirDataFileEntries client
        (client.readDataList (client.prependDataDir f))).flatten,
    []⟩

end Meadowdb

namespace Meadowgrid

/-- The process-state enum (`ProcessState.ProcessStateEnum` of the protobuf
schema; the variants are those the spec's data model lists). -/
inductive ProcessStateEnum where
  | runRequested | assigned | running | succeeded | pythonException
  | nonZeroReturnCode | cancelled | runRequestFailed | unknown
  | errorGettingState | requestIsDuplicate
deriving DecidableEq, Repr

/-- A process-state message: the coordinator only ever constructs and
forwards the `state` field (pid, return_code, pickled_result and log paths
ride along opaquely and are not modelled). -/
structure ProcessState where
  state : ProcessStateEnum
deriving DecidableEq, Repr

/-- The protobuf `GridTask` message used in requests and responses, used both to submit tasks and to hand
them to workers: a task id (−1 is the no-task sentinel) and opaque pickled
arguments. -/
structure GridTaskMsg where
  taskId : Int
  pickledFunctionArguments : String := ""
deriving DecidableEq, Repr

/-- The in-memory `_GridTask`: task id, pickled arguments, current state. -/
structure GridTask where
  taskId : Int
  pickledFunctionArguments : String
  state : ProcessState
deriving DecidableEq, Repr

/-- The job-spec oneof of the protobuf `Job` message: py_command and
py_function are opaque to the coordinator; py_grid carries the initially
submitted tasks and the all_tasks_added flag. -/
inductive JobSpec where
  | pyCommand
  | pyFunction
  | pyGrid (tasks : List GridTaskMsg) (allTasksAdded : Bool)
deriving DecidableEq, Repr

/-- The protobuf `Job` message fields the coordinator reads. -/
structure Job where
  jobId : String
  jobFriendlyName : String
  priority : Int
  spec : JobSpec
deriving DecidableEq, Repr

/-- The in-memory `_SimpleJob`: the retained Job and its process state. -/
structure SimpleJob where
  job : Job
  state : ProcessState
deriving DecidableEq, Repr

/-- The in-memory `_GridJob`: the retained Job, all tasks indexed by id (a
dict in insertion order), the FIFO deque of unassigned tasks, the
all_tasks_added seal, and the worker counter. -/
structure GridJob where
  job : Job
  allTasks : List (Int × GridTask)
  unassignedTasks : List GridTask
  allTasksAdded : Bool
  numCurrentGridWorkers : Int
deriving DecidableEq, Repr

/-- The coordinator state (`MeadowGridCoordinatorHandler.__init__`): the two
job maps, as association lists in insertion order. -/
structure Coordinator where
  gridJobs : List (String × GridJob)
  simpleJobs : List (String × SimpleJob)
deriving DecidableEq, Repr

/-- The freshly started coordinator: both maps empty. -/
def Coordinator.init : Coordinator := ⟨[], []⟩

/-- Replaces the value bound to a key in an association list (in-place
mutation of a dict entry; the key is expected to be present). -/
def updateAssoc {κ α : Type} [DecidableEq κ] (l : List (κ × α)) (k : κ) (v : α) :
    List (κ × α) :=
  l.map fun kv => if kv.1 = k then (k, v) else kv

/-- Modelled from the spec: `JOB_ID_VALID_CHARACTERS` (in
`meadowgrid/config.py`, not under src/) is the identifier alphabet letters,
digits, `.`, `-`, `_`. -/
def jobIdValidCharacter (c : Char) : Bool :=
  c.isAlpha ∨ c.isDigit ∨ c = '.' ∨ c = '-' ∨ c = '_'

/-- Embeds `_add_tasks_to_grid_job` (coordinator.py lines 81-111): for each
submitted task in order, a duplicate id is ignored; otherwise the call
fails if the job is already sealed or the id is negative; otherwise a
RUN_REQUESTED task is inserted into all_tasks and appended to the
unassigned deque.  On failure the state mutated so far is returned with the
error, since the Python exception propagates after in-place mutation. -/
def addTasksToGridJobHelper (gridJob : GridJob) :
    List GridTaskMsg → GridJob × Option String
  | [] => (gridJob, none)
  | taskRequest :: rest =>
    if (gridJob.allTasks.lookup taskRequest.taskId).isSome then
      addTasksToGridJobHelper gridJob rest
    else if gridJob.allTasksAdded then
      (gridJob, some ("Tried to add all_tasks to job " ++ gridJob.job.jobId
        ++ " after it had already been marked as all_tasks_added"))
    else if taskRequest.taskId < 0 then
      (gridJob, some "task_ids cannot be negative")
    else
      let gridTask : GridTask :=
        ⟨taskRequest.taskId, taskRequest.pickledFunctionArguments,
          ⟨ProcessStateEnum.runRequested⟩⟩
      addTasksToGridJobHelper
        { gridJob with
          allTasks := gridJob.allTasks ++ [(taskRequest.taskId, gridTask)]
          unassignedTasks := gridJob.unassignedTasks ++ [gridTask] }
        rest

/-- The `AddJobResponse.AddJobState` enum. -/
inductive AddJobState where
  | added | isDuplicate
deriving DecidableEq, Repr

/-- Embeds `add_job` (coordinator.py lines 139-188): validate the
identifiers, answer IS_DUPLICATE if the job id is in either map, reject
non-positive priority, then insert a RUN_REQUESTED simple job or build the
grid job (tasks imported while all_tasks_added is False, then stripped from
the retained Job, then the seal set from the request).  A task-validation
error inside the grid branch propagates before the job is inserted. -/
def addJob (c : Coordinator) (request : Job) :
    Coordinator × Except String AddJobState :=
  if request.jobId = "" then
    (c, .error "job_id must not be None/empty string")
  else if (request.jobId.toList.any fun ch => ¬ jobIdValidCharacter ch)
      ∨ (request.jobFriendlyName.toList.any fun ch => ¬ jobIdValidCharacter ch) then
    (c, .error ("job_id " ++ request.jobId ++ " or friendly name "
      ++ request.jobFriendlyName ++ " contains invalid characters. Only "
      ++ "string.ascii_letters, numbers, ., -, and _ are permitted."))
  else if (c.gridJobs.lookup request.jobId).isSome
      ∨ (c.simpleJobs.lookup request.jobId).isSome then
    (c, .ok AddJobState.isDuplicate)
  else if request.priority ≤ 0 then
    (c, .error "priority must be greater than 0")
  else
    match request.spec with
    | .pyCommand =>
      ({ c with simpleJobs :=
          c.simpleJobs ++ [(request.jobId,
            ⟨request, ⟨ProcessStateEnum.runRequested⟩⟩)] },
        .ok AddJobState.added)
    | .pyFunction =>
      ({ c with simpleJobs :=
          c.simpleJobs ++ [(request.jobId,
            ⟨request, ⟨ProcessStateEnum.runRequested⟩⟩)] },
        .ok AddJobState.added)
    | .pyGrid tasks allTasksAdded =>
      let gridJob : GridJob := ⟨request, [], [], false, 0⟩
      match addTasksToGridJobHelper gridJob tasks with
      | (_, some e) => (c, .error e)
      | (gridJob1, none) =>
        let strippedJob := { request with spec := JobSpec.pyGrid [] allTasksAdded }
        let gridJob2 := { gridJob1 with
          job := strippedJob
          allTasksAdded := allTasksAdded }
        ({ c with gridJobs := c.gridJobs ++ [(request.jobId, gridJob2)] },
          .ok AddJobState.added)

/-- Embeds the `add_tasks_to_grid_job` RPC (coordinator.py lines 190-204):
the job must exist as a grid job; the shared helper runs (its partial
insertions persist even on error, since the _GridJob is mutated in place);
on success the seal is set if requested. -/
def addTasksToGridJob (c : Coordinator) (jobId : String)
    (tasks : List GridTaskMsg) (allTasksAdded : Bool) :
    Coordinator × Except String Unit :=
  match c.gridJobs.lookup jobId with
  | none =>
    (c, .error ("job_id " ++ jobId ++ " does not exist, so cannot add tasks to it"))
  | some job =>
    match addTasksToGridJobHelper job tasks with
    | (job1, some e) =>
      ({ c with gridJobs := updateAssoc c.gridJobs jobId job1 }, .error e)
    | (job1, none) =>
      let job2 := if allTasksAdded then { job1 with allTasksAdded := true } else job1
      ({ c with gridJobs := updateAssoc c.gridJobs jobId job2 }, .ok ())

/-- Embeds `update_job_states` (coordinator.py lines 206-229): each entry
overwrites the state of a simple job; entries naming grid jobs or unknown
jobs are logged and dropped. -/
def updateJobStates (c : Coordinator)
    (jobStates : List (String × ProcessState)) : Coordinator :=
  jobStates.foldl
    (fun acc js =>
      match acc.simpleJobs.lookup js.1 with
      | some simpleJob =>
        { acc with simpleJobs :=
            updateAssoc acc.simpleJobs js.1 ({ simpleJob with state := js.2 }) }
      | none => acc)
    c

/-- A candidate for dispatch: a grid job with spare queued tasks or a
RUN_REQUESTED simple job, with its key. -/
def availableJobs (c : Coordinator) :
    List (Sum (String × GridJob) (String × SimpleJob)) :=
  ((c.gridJobs.filter fun kv =>
      (kv.2.unassignedTasks.length : Int) > kv.2.numCurrentGridWorkers).map Sum.inl)
  ++ ((c.simpleJobs.filter fun kv =>
      kv.2.state.state = ProcessStateEnum.runRequested).map Sum.inr)

/-- Embeds `get_next_job` (coordinator.py lines 231-275): gather the
available grid and simple jobs; if none, answer the empty sentinel;
otherwise pick one (the priority-weighted `random.choices` draw is modelled
by the oracle index `choice`, taken modulo the candidate count), increment
the chosen grid job's worker counter or move the chosen simple job to
ASSIGNED, and return the retained Job. -/
def getNextJob (c : Coordinator) (choice : Nat) : Coordinator × Option Job :=
  let available := availableJobs c
  match available.get? (choice % available.length) with
  | none => (c, none)
  | some (Sum.inl (jobId, gridJob)) =>
    let gridJob1 :=
      { gridJob with numCurrentGridWorkers := gridJob.numCurrentGridWorkers + 1 }
    ({ c with gridJobs := updateAssoc c.gridJobs jobId gridJob1 }, some gridJob.job)
  | some (Sum.inr (jobId, simpleJob)) =>
    let simpleJob1 := { simpleJob with state := ⟨ProcessStateEnum.assigned⟩ }
    ({ c with simpleJobs := updateAssoc c.simpleJobs jobId simpleJob1 },
      some simpleJob.job)

/-- Embeds `update_grid_task_state_and_get_next` (coordinator.py lines
277-330): unknown job, or a task id other than −1 that is unknown inside
the job, answers the −1 stop signal; otherwise a reported task id other
than −1 overwrites that task's state; then the front of the unassigned
deque is popped and returned, or, when the deque is empty, the worker
counter is decremented clamped at 0 and −1 is returned. -/
def updateGridTaskStateAndGetNext (c : Coordinator) (jobId : String)
    (taskId : Int) (processState : ProcessState) : Coordinator × GridTaskMsg :=
  match c.gridJobs.lookup jobId with
  | none => (c, ⟨-1, ""⟩)
  | some gridJob =>
    if taskId ≠ -1 ∧ (gridJob.allTasks.lookup taskId).isNone then
      (c, ⟨-1, ""⟩)
    else
      let gridJob1 :=
        if taskId ≠ -1 then
          match gridJob.allTasks.lookup taskId with
          | some task =>
            let updatedTask := { task with state := processState }
            { gridJob with allTasks :=
                updateAssoc gridJob.allTasks taskId updatedTask }
          | none => gridJob
        else gridJob
      match gridJob1.unassignedTasks with
      | chosenTask :: restTasks =>
        let gridJob2 := { gridJob1 with unassignedTasks := restTasks }
        ({ c with gridJobs := updateAssoc c.gridJobs jobId gridJob2 },
          ⟨chosenTask.taskId, chosenTask.pickledFunctionArguments⟩)
      | [] =>
        let gridJob2 := { gridJob1 with
          numCurrentGridWorkers := max 0 (gridJob1.numCurrentGridWorkers - 1) }
        ({ c with gridJobs := updateAssoc c.gridJobs jobId gridJob2 },
          ⟨-1, ""⟩)

/-- Embeds `get_simple_job_states` (coordinator.py lines 332-344): answers,
in request order, the stored state of each simple job and UNKNOWN for every
id not in the simple-jobs map. -/
def getSimpleJobStates (c : Coordinator) (jobIds : List String) :
    List ProcessState :=
  jobIds.map fun jobId =>
    match c.simpleJobs.lookup jobId with
    | some simpleJob => simpleJob.state
    | none => ⟨ProcessStateEnum.unknown⟩

/-- One state-mutating RPC invocation, with the dispatcher's random draw
made explicit as an oracle index. -/
inductive CoordOp where
  | addJob (request : Job)
  | addTasksToGridJob (jobId : String) (tasks : List GridTaskMsg)
      (allTasksAdded : Bool)
  | updateJobStates (jobStates : List (String × ProcessState))
  | getNextJob (choice : Nat)
  | updateGridTaskStateAndGetNext (jobId : String) (taskId : Int)
      (processState : ProcessState)

/-- The coordinator state after one RPC. -/
def stepCoord (c : Coordinator) : CoordOp → Coordinator
  | .addJob request => (addJob c request).1
  | .addTasksToGridJob jobId tasks allTasksAdded =>
    (addTasksToGridJob c jobId tasks allTasksAdded).1
  | .updateJobStates jobStates => updateJobStates c jobStates
  | .getNextJob choice => (getNextJob c choice).1
  | .updateGridTaskStateAndGetNext jobId taskId processState =>
    (updateGridTaskStateAndGetNext c jobId taskId processState).1

/-- The coordinator state after a sequence of RPCs. -/
def runCoord (c : Coordinator) : List CoordOp → Coordinator
  | [] => c
  | op :: ops => runCoord (stepCoord c op) ops

end Meadowgrid

namespace Meadowdb

lemma CmpOp.inverse_inverse (op : CmpOp) : op.inverse.inverse = op := by
  cases op <;> rfl

lemma MdbBool.invert_invert (p : MdbBool) : p.invert.invert = p := by
  induction p with
  | opArg v c op a => simp [MdbBool.invert, CmpOp.inverse_inverse]
  | opCol a b op iha ihb => cases op <;> simp [MdbBool.invert, iha, ihb]

/-- C7: predicate negation is an involution and obeys De Morgan's laws:
double negation is the identity on the predicate tree, negating an AND
node yields the OR of the negated children (and dually), and negating a
leaf swaps its comparator with its inverse (= with ≠, < with ≥, > with ≤,
BETWEEN with NOT BETWEEN, IN with NOT IN) while leaving the table, column
and arguments unchanged. -/
theorem claim_C7_negation_involution_deMorgan (p q : MdbBool)
    (v : Int) (c : String) (op : CmpOp) (a : CmpArg) :
    p.invert.invert = p
    ∧ (MdbBool.opCol p q BoolOp.and).invert = MdbBool.opCol p.invert q.invert BoolOp.or
    ∧ (MdbBool.opCol p q BoolOp.or).invert = MdbBool.opCol p.invert q.invert BoolOp.and
    ∧ (MdbBool.opArg v c op a).invert = MdbBool.opArg v c op.inverse a
    ∧ CmpOp.eq.inverse = CmpOp.ne ∧ CmpOp.ne.inverse = CmpOp.eq
    ∧ CmpOp.lt.inverse = CmpOp.ge ∧ CmpOp.ge.inverse = CmpOp.lt
    ∧ CmpOp.gt.inverse = CmpOp.le ∧ CmpOp.le.inverse = CmpOp.gt
    ∧ CmpOp.between.inverse = CmpOp.notBetween
    ∧ CmpOp.notBetween.inverse = CmpOp.between
    ∧ CmpOp.inOp.inverse = CmpOp.notIn ∧ CmpOp.notIn.inverse = CmpOp.inOp :=
  ⟨p.invert_invert, rfl, rfl, rfl, rfl, rfl, rfl, rfl, rfl, rfl, rfl, rfl, rfl, rfl⟩

lemma columnArgs_map_selectColumns (ls : List (List String)) :
    columnArgs (ls.map Op.selectColumns) = ls := by
  induction ls with
  | nil => rfl
  | cons x xs ih => simpa [columnArgs] using ih

lemma rowArgs_map_selectColumns (ls : List (List String)) :
    rowArgs (ls.map Op.selectColumns) = [] := by
  induction ls with
  | nil => rfl
  | cons x xs ih => simp [rowArgs]

lemma foldColumnArgs_chain (cs : List (List String)) (c : List String)
    (h : List.Chain' (fun x y => ∀ a ∈ y, a ∈ x) (c :: cs)) :
    foldColumnArgs c cs = Except.ok (cs.getLastD c) := by
  induction cs generalizing c with
  | nil => rfl
  | cons next rest ih =>
    rw [List.chain'_cons] at h
    have hfilter : next.filter (fun a => ¬ a ∈ c) = [] := by
      rw [List.filter_eq_nil_iff]
      intro a ha
      simp [h.1 a ha]
    rw [List.getLastD_cons]
    unfold foldColumnArgs
    rw [hfilter]
    exact ih next h.2

/-- C6: successive column projections compose when each later column set is
a subset of the running set, in which case the generated SQL is the same as
selecting the last (narrowest) set directly; a later set containing a
column outside the running set makes `_construct_sql` fail with an error
naming exactly the offending columns (concretely,
selecting [A,B] then [A,C] fails naming C). -/
theorem claim_C6_projection_composition :
    (∀ (v : Int) (c : List String) (cs : List (List String)),
      List.Chain' (fun x y => ∀ a ∈ y, a ∈ x) (c :: cs) →
      constructSql v ((c :: cs).map Op.selectColumns)
        = constructSql v [Op.selectColumns (cs.getLastD c)])
    ∧ (∀ (curr next : List String) (rest : List (List String)),
      next.filter (fun a => ¬ a ∈ curr) ≠ [] →
      foldColumnArgs curr (next :: rest)
        = Except.error ("Tried to select columns "
            ++ String.intercalate ", " (next.filter (fun a => ¬ a ∈ curr))
            ++ " after already filtering them out"))
    ∧ constructSql 0 [Op.selectColumns ["A", "B"], Op.selectColumns ["A", "C"]]
        = Except.error "Tried to select columns C after already filtering them out" := by
  refine ⟨?_, ?_, by rfl⟩
  · intro v c cs h
    simp only [constructSql, columnArgs_map_selectColumns,
      rowArgs_map_selectColumns, foldColumnArgs_chain cs c h]
    rfl
  · intro curr next rest h
    unfold foldColumnArgs
    rw [if_pos (List.length_pos.mpr h)]

/-- C6 witness: projecting to [A,B,C] and then to [A,B] generates the same
SQL as projecting to [A,B] directly. -/
theorem claim_C6_projection_composition_witness :
    constructSql 0 [Op.selectColumns ["A", "B", "C"], Op.selectColumns ["A", "B"]]
      = constructSql 0 [Op.selectColumns ["A", "B"]] :=
  claim_C6_projection_composition.1 0 ["A", "B", "C"] [["A", "B"]]
    (by rw [List.chain'_cons]; exact ⟨by decide, List.chain'_singleton _⟩)

/-- C1: contrary to the claim, with two or more `SelectRows` ops the
generated where_clause is the rendering of the FIRST predicate alone, not
the parenthesized conjunction: `_construct_sql` folds the predicates into
`curr_filter_column` but then renders `row_args[0]` (reader.py line 405),
discarding the conjunction.  Here filtering by c1 = 3 and then by c2 = 4
yields the clause for c1 = 3 only, which differs from the conjunction
clause. -/
theorem claim_C1_where_clause_first_predicate_only :
    constructSql 0
      [Op.selectRows (MdbBool.opArg 0 "c1" CmpOp.eq (CmpArg.single (Lit.int 3))),
        Op.selectRows (MdbBool.opArg 0 "c2" CmpOp.eq (CmpArg.single (Lit.int 4)))]
      = Except.ok ("SELECT " ++ tableNamePlaceholder ++ ".*",
          "(" ++ tableNamePlaceholder ++ ".\"c1\" = 3)")
    ∧ (MdbBool.opCol (MdbBool.opArg 0 "c1" CmpOp.eq (CmpArg.single (Lit.int 3)))
        (MdbBool.opArg 0 "c2" CmpOp.eq (CmpArg.single (Lit.int 4)))
        BoolOp.and).constructWhereClause 0
      = Except.ok ("((" ++ tableNamePlaceholder ++ ".\"c1\" = 3) AND ("
          ++ tableNamePlaceholder ++ ".\"c2\" = 4))")
    ∧ ("(" ++ tableNamePlaceholder ++ ".\"c1\" = 3)"
      ≠ "((" ++ tableNamePlaceholder ++ ".\"c1\" = 3) AND ("
          ++ tableNamePlaceholder ++ ".\"c2\" = 4))") := by
  refine ⟨by rfl, by rfl, by decide⟩

end Meadowdb

namespace Meadowdb

lemma toPdWalk_deleteAll (engine : QueryEngine) (files : String → Table)
    (dk : Option (List String)) (sc wc : String) (xs : List DataFileEntry) :
    ∀ (i : Nat) (pks ds : Table) (ys zs : List DataFileEntry),
    toPdWalk engine files dk sc wc i (xs ++ DataFileEntry.deleteAll :: ys) pks ds
      = toPdWalk engine files dk sc wc i (xs ++ DataFileEntry.deleteAll :: zs) pks ds := by
  induction xs with
  | nil => intro i pks ds ys zs; rfl
  | cons x rest ih =>
    intro i pks ds ys zs
    cases x with
    | write f =>
      simp only [List.cons_append, toPdWalk]
      exact congrArg (Except.map _) (ih (i + 1) _ ds ys zs)
    | delete f =>
      simp only [List.cons_append, toPdWalk]
      split
      · rfl
      · exact ih (i + 1) pks _ ys zs
    | deleteAll => rfl

/-- Congruence for `to_pd` in the data list: two tables whose walks agree
materialize identically. -/
lemma toPd_congr_walk (engine : QueryEngine) (files : String → Table)
    (versionNumber : Int) (tableSchema : TableSchema) (ops : List Op)
    (l₁ l₂ : List DataFileEntry)
    (hw : ∀ sc wc, toPdWalk engine files tableSchema.deduplicationKeys sc wc 0
        l₁.reverse Table.empty Table.empty
      = toPdWalk engine files tableSchema.deduplicationKeys sc wc 0
        l₂.reverse Table.empty Table.empty) :
    toPd engine files ⟨versionNumber, tableSchema, l₁, ops⟩
      = toPd engine files ⟨versionNumber, tableSchema, l₂, ops⟩ := by
  unfold toPd
  congr 1
  funext discr
  obtain ⟨sc, wc⟩ := discr
  dsimp only
  rw [hw sc wc]

/-- C2: materialization never reads past a `delete_all` marker: the result
of `to_pd` on a segment list with a `delete_all` at position k does not
depend on the segments at older positions (before k) at all, for every
schema, query engine, file contents and user-supplied ops. -/
theorem claim_C2_delete_all_stops_interpretation (engine : QueryEngine)
    (files : String → Table) (versionNumber : Int) (tableSchema : TableSchema)
    (ops : List Op) (older₁ older₂ newer : List DataFileEntry) :
    toPd engine files
      ⟨versionNumber, tableSchema, older₁ ++ DataFileEntry.deleteAll :: newer, ops⟩
      = toPd engine files
        ⟨versionNumber, tableSchema, older₂ ++ DataFileEntry.deleteAll :: newer, ops⟩ := by
  apply toPd_congr_walk
  intro sc wc
  have hrev : ∀ older : List DataFileEntry,
      (older ++ DataFileEntry.deleteAll :: newer).reverse
        = newer.reverse ++ DataFileEntry.deleteAll :: older.reverse := by
    intro older; simp
  rw [hrev older₁, hrev older₂]
  exact toPdWalk_deleteAll engine files tableSchema.deduplicationKeys sc wc
    newer.reverse 0 Table.empty Table.empty older₁.reverse older₂.reverse

lemma exceptBindOk {α β : Type} (x : α) (f : α → Except String β) :
    (Except.ok x : Except String α) >>= f = f x := rfl

/-- The prepended data-file entries a table version contributes to the
returned data list. -/
def entriesOf (client : TableVersionsClient) (tv : TableVersion) : List DataFileEntry :=
  prependDataDirDataFileEntries client
    (client.readDataList (client.prependDataDir tv.dataListFilename))

/-- The schema loaded from an optional schema filename, with the default
empty schema as fallback (read's final schema resolution). -/
def schemaVia (client : TableVersionsClient) : Option String → TableSchema
  | some f => client.readSchema (client.prependDataDir f)
  | none => TableSchema.mk none

/-- C4: reading a non-prod userspace layers prod below the userspace: when
both versions exist the data list is prod's entries followed by the
userspace's, the version number is the maximum of the two, and the schema
comes from the userspace version's schema filename, falling back on
prod's; when only one exists, that version's data, version number and
schema fallback are used; when neither exists, read fails.  The version
numbers are assumed non-negative, as produced by the registry. -/
theorem claim_C4_userspace_layering (client : TableVersionsClient)
    (userspace tableName : String) (maxVersionNumber : Option Int)
    (hus : userspace ≠ prodUserspaceName) :
    (client.getCurrentTableVersion userspace tableName maxVersionNumber = none →
      client.getCurrentTableVersion prodUserspaceName tableName maxVersionNumber = none →
      read client userspace tableName maxVersionNumber
        = Except.error ("Requested table " ++ userspace ++ "/" ++ tableName
            ++ " does not exist and " ++ prodUserspaceName ++ "/" ++ tableName
            ++ " also does not exist"))
    ∧ (∀ utv ptv,
      client.getCurrentTableVersion userspace tableName maxVersionNumber = some utv →
      client.getCurrentTableVersion prodUserspaceName tableName maxVersionNumber = some ptv →
      0 ≤ ptv.versionNumber →
      read client userspace tableName maxVersionNumber
        = Except.ok ⟨max ptv.versionNumber utv.versionNumber,
            schemaVia client (utv.tableSchemaFilename.or ptv.tableSchemaFilename),
            entriesOf client ptv ++ entriesOf client utv, []⟩)
    ∧ (∀ utv,
      client.getCurrentTableVersion userspace tableName maxVersionNumber = some utv →
      client.getCurrentTableVersion prodUserspaceName tableName maxVersionNumber = none →
      0 ≤ utv.versionNumber →
      read client userspace tableName maxVersionNumber
        = Except.ok ⟨utv.versionNumber, schemaVia client utv.tableSchemaFilename,
            entriesOf client utv, []⟩)
    ∧ (∀ ptv,
      client.getCurrentTableVersion userspace tableName maxVersionNumber = none →
      client.getCurrentTableVersion prodUserspaceName tableName maxVersionNumber = some ptv →
      read client userspace tableName maxVersionNumber
        = Except.ok ⟨ptv.versionNumber, schemaVia client ptv.tableSchemaFilename,
            entriesOf client ptv, []⟩) := by
  refine ⟨?_, ?_, ?_, ?_⟩
  · intro h1 h2
    simp only [read, h1, h2, if_neg hus]
    rfl
  · intro utv ptv h1 h2 hp
    have hmax : max (-1) ptv.versionNumber = ptv.versionNumber := by omega
    cases hs : utv.tableSchemaFilename with
    | none =>
      simp [read, hus, h1, h2, hmax, hs, schemaVia, entriesOf, Option.or,
        exceptBindOk]
    | some f =>
      simp [read, hus, h1, h2, hmax, hs, schemaVia, entriesOf, Option.or,
        exceptBindOk]
  · intro utv h1 h2 hu
    have hmax : max (-1) utv.versionNumber = utv.versionNumber := by omega
    cases hs : utv.tableSchemaFilename with
    | none => simp [read, hus, h1, h2, hmax, hs, schemaVia, entriesOf, exceptBindOk]
    | some f => simp [read, hus, h1, h2, hmax, hs, schemaVia, entriesOf, exceptBindOk]
  · intro ptv h1 h2
    cases hs : ptv.tableSchemaFilename with
    | none => simp [read, hus, h1, h2, hs, schemaVia, entriesOf, exceptBindOk]
    | some f => simp [read, hus, h1, h2, hs, schemaVia, entriesOf, exceptBindOk]

/-- A concrete registry/storage client: prod at version 5 without a schema
file, dev at version 6 with one. -/
def sampleClient : TableVersionsClient :=
  ⟨fun us _ _ =>
      if us = "prod" then some ⟨5, none, "p"⟩
      else if us = "dev" then some ⟨6, some "s", "d"⟩
      else none,
    fun f => f,
    fun f => if f = "p" then [DataFileEntry.write "wp"] else [DataFileEntry.write "wd"],
    fun _ => TableSchema.mk (some ["k"])⟩

/-- C4 witness: reading dev/t against `sampleClient` yields prod's entries
followed by dev's, version number max 5 6, and dev's schema. -/
theorem claim_C4_userspace_layering_witness :
    read sampleClient "dev" "t" none
      = Except.ok ⟨max (5 : Int) 6,
          schemaVia sampleClient (Option.or (some "s") none),
          entriesOf sampleClient ⟨5, none, "p"⟩ ++ entriesOf sampleClient ⟨6, some "s", "d"⟩,
          []⟩ :=
  (claim_C4_userspace_layering sampleClient "dev" "t" none (by decide)).2.1
    ⟨6, some "s", "d"⟩ ⟨5, none, "p"⟩ rfl rfl (by decide)

end Meadowdb

namespace Meadowgrid

/-- C5 counterexample: the duplicate check precedes the priority check, so
an AddJob request with priority 0 whose job_id already exists is answered
with IS_DUPLICATE, not a validation error — refuting the claim that a
non-positive-priority request is never answered with ADDED or
IS_DUPLICATE. -/
theorem claim_C5_counterexample_duplicate_with_zero_priority :
    (addJob (addJob Coordinator.init ⟨"a", "x", 1, JobSpec.pyCommand⟩).1
      ⟨"a", "x", 0, JobSpec.pyCommand⟩).2 = Except.ok AddJobState.isDuplicate := rfl

/-- C5 amended: AddJob rejects a non-positive-priority request with a
validation error whenever the job_id is non-empty, well-formed, and not
already present in either job map; a request whose job_id already exists
is answered IS_DUPLICATE before the priority check. -/
theorem claim_C5_amended_priority_rejected_for_new_ids (c : Coordinator)
    (request : Job) (hne : request.jobId ≠ "")
    (hv : ¬ ((request.jobId.toList.any fun ch => ¬ jobIdValidCharacter ch)
      ∨ (request.jobFriendlyName.toList.any fun ch => ¬ jobIdValidCharacter ch)))
    (hg : (c.gridJobs.lookup request.jobId).isSome = false)
    (hs : (c.simpleJobs.lookup request.jobId).isSome = false)
    (hprio : request.priority ≤ 0) :
    addJob c request = (c, Except.error "priority must be greater than 0") := by
  unfold addJob
  rw [if_neg hne, if_neg hv, if_neg (by simp [hg, hs]), if_pos hprio]

/-- C5 amended witness: a fresh coordinator rejects a priority-0 request. -/
theorem claim_C5_amended_priority_rejected_witness :
    addJob Coordinator.init ⟨"a", "x", 0, JobSpec.pyCommand⟩
      = (Coordinator.init, Except.error "priority must be greater than 0") :=
  claim_C5_amended_priority_rejected_for_new_ids Coordinator.init
    ⟨"a", "x", 0, JobSpec.pyCommand⟩ (by decide) (by decide) rfl rfl (by decide)

lemma addTasksHelper_append_of_ok (pre : List GridTaskMsg) :
    ∀ (gj gj1 : GridJob) (suffix : List GridTaskMsg),
    addTasksToGridJobHelper gj pre = (gj1, none) →
    addTasksToGridJobHelper gj (pre ++ suffix) = addTasksToGridJobHelper gj1 suffix := by
  induction pre with
  | nil =>
    intro gj gj1 suffix h
    simp only [addTasksToGridJobHelper] at h
    injection h with h1 h2
    subst h1
    rfl
  | cons t rest ih =>
    intro gj gj1 suffix h
    rw [List.cons_append]
    simp only [addTasksToGridJobHelper] at h ⊢
    by_cases hd : (gj.allTasks.lookup t.taskId).isSome = true
    · rw [if_pos hd] at h ⊢
      exact ih gj gj1 suffix h
    · rw [if_neg hd] at h ⊢
      by_cases hseal : gj.allTasksAdded = true
      · rw [if_pos hseal] at h
        simp at h
      · rw [if_neg hseal] at h ⊢
        by_cases hneg2 : t.taskId < 0
        · rw [if_pos hneg2] at h
          simp at h
        · rw [if_neg hneg2] at h ⊢
          exact ih _ gj1 suffix h

lemma addTasksHelper_appends (l : List GridTaskMsg) :
    ∀ gj : GridJob, ∃ newTasks : List GridTask,
      (addTasksToGridJobHelper gj l).1.allTasks
        = gj.allTasks ++ newTasks.map (fun t => (t.taskId, t))
      ∧ (addTasksToGridJobHelper gj l).1.unassignedTasks
        = gj.unassignedTasks ++ newTasks
      ∧ (addTasksToGridJobHelper gj l).1.allTasksAdded = gj.allTasksAdded
      ∧ (addTasksToGridJobHelper gj l).1.numCurrentGridWorkers
        = gj.numCurrentGridWorkers
      ∧ (addTasksToGridJobHelper gj l).1.job = gj.job
      ∧ ∀ t ∈ newTasks, 0 ≤ t.taskId
        ∧ t.state = ⟨ProcessStateEnum.runRequested⟩ := by
  induction l with
  | nil =>
    intro gj
    exact ⟨[], by simp [addTasksToGridJobHelper]⟩
  | cons t rest ih =>
    intro gj
    simp only [addTasksToGridJobHelper]
    by_cases hd : (gj.allTasks.lookup t.taskId).isSome = true
    · rw [if_pos hd]
      exact ih gj
    · rw [if_neg hd]
      by_cases hseal : gj.allTasksAdded = true
      · rw [if_pos hseal]
        exact ⟨[], by simp⟩
      · rw [if_neg hseal]
        by_cases hneg2 : t.taskId < 0
        · rw [if_pos hneg2]
          exact ⟨[], by simp⟩
        · rw [if_neg hneg2]
          obtain ⟨newTasks, h1, h2, h3, h4, h5, h6⟩ := ih
            { gj with
              allTasks := gj.allTasks
                ++ [(t.taskId, ⟨t.taskId, t.pickledFunctionArguments,
                      ⟨ProcessStateEnum.runRequested⟩⟩)]
              unassignedTasks := gj.unassignedTasks
                ++ [⟨t.taskId, t.pickledFunctionArguments,
                      ⟨ProcessStateEnum.runRequested⟩⟩] }
          refine ⟨⟨t.taskId, t.pickledFunctionArguments,
            ⟨ProcessStateEnum.runRequested⟩⟩ :: newTasks, ?_, ?_, h3, h4, h5, ?_⟩
          · simpa [List.append_assoc] using h1
          · simpa [List.append_assoc] using h2
          · intro u hu
            cases hu with
            | head => exact ⟨by simp; omega, rfl⟩
            | tail _ hu2 => exact h6 u hu2

/-- C9: AddTasksToGridJob is not atomic on error.  If processing a prefix
of the batch succeeds and the next task is new but invalid (the job is
already sealed, or the id is negative), the helper returns the state with
every valid new task of the prefix already inserted into all_tasks and
appended to the unassigned deque, together with the error; and the RPC
writes that mutated grid job back into the coordinator while failing. -/
theorem claim_C9_add_tasks_not_atomic_on_error (gj gj1 : GridJob)
    (pre rest : List GridTaskMsg) (bad : GridTaskMsg)
    (hpre : addTasksToGridJobHelper gj pre = (gj1, none))
    (hnew : (gj1.allTasks.lookup bad.taskId).isSome = false)
    (hfail : gj1.allTasksAdded = true ∨ bad.taskId < 0) :
    ∃ e, addTasksToGridJobHelper gj (pre ++ bad :: rest) = (gj1, some e)
    ∧ (∃ newTasks : List GridTask,
        gj1.allTasks = gj.allTasks ++ newTasks.map (fun t => (t.taskId, t))
        ∧ gj1.unassignedTasks = gj.unassignedTasks ++ newTasks)
    ∧ ∀ (c : Coordinator) (jobId : String) (ata : Bool),
        c.gridJobs.lookup jobId = some gj →
        addTasksToGridJob c jobId (pre ++ bad :: rest) ata
          = ({ c with gridJobs := updateAssoc c.gridJobs jobId gj1 },
              Except.error e) := by
  have happend := addTasksHelper_append_of_ok pre gj gj1 (bad :: rest) hpre
  have hins : ∃ newTasks : List GridTask,
      gj1.allTasks = gj.allTasks ++ newTasks.map (fun t => (t.taskId, t))
      ∧ gj1.unassignedTasks = gj.unassignedTasks ++ newTasks := by
    obtain ⟨newTasks, h1, h2, _⟩ := addTasksHelper_appends pre gj
    exact ⟨newTasks, by rw [hpre] at h1; exact h1, by rw [hpre] at h2; exact h2⟩
  have hstep : ∃ e,
      addTasksToGridJobHelper gj1 (bad :: rest) = (gj1, some e) := by
    simp only [addTasksToGridJobHelper]
    rw [if_neg (by simp [hnew])]
    cases hAdded : gj1.allTasksAdded with
    | true => exact ⟨_, by rw [if_pos rfl]⟩
    | false =>
      rw [if_neg (by simp)]
      cases hfail with
      | inl h => exact absurd hAdded (by rw [h]; simp)
      | inr h => exact ⟨_, by rw [if_pos h]⟩
  obtain ⟨e, he⟩ := hstep
  refine ⟨e, by rw [happend, he], hins, ?_⟩
  intro c jobId ata hc
  unfold addTasksToGridJob
  rw [hc]
  dsimp only
  rw [happend, he]

/-- The job retained by the C9 witness scenario. -/
def c9Job : Job := ⟨"g", "g", 1, JobSpec.pyGrid [] false⟩

/-- The grid job of the C9 witness before the failing batch. -/
def c9Gj0 : GridJob := ⟨c9Job, [], [], false, 0⟩

/-- The task inserted by the valid prefix of the C9 witness batch. -/
def c9Task0 : GridTask := ⟨0, "a", ⟨ProcessStateEnum.runRequested⟩⟩

/-- The grid job of the C9 witness after the valid prefix. -/
def c9Gj1 : GridJob := ⟨c9Job, [(0, c9Task0)], [c9Task0], false, 0⟩

/-- C9 witness: submitting the batch [task 0, task −1] to an empty unsealed
grid job fails, with task 0 already inserted and persisting. -/
theorem claim_C9_add_tasks_not_atomic_witness :
    ∃ e, addTasksToGridJobHelper c9Gj0 ([⟨0, "a"⟩] ++ ⟨-1, "b"⟩ :: [])
        = (c9Gj1, some e)
    ∧ (∃ newTasks : List GridTask,
        c9Gj1.allTasks = c9Gj0.allTasks ++ newTasks.map (fun t => (t.taskId, t))
        ∧ c9Gj1.unassignedTasks = c9Gj0.unassignedTasks ++ newTasks)
    ∧ ∀ (c : Coordinator) (jobId : String) (ata : Bool),
        c.gridJobs.lookup jobId = some c9Gj0 →
        addTasksToGridJob c jobId ([⟨0, "a"⟩] ++ ⟨-1, "b"⟩ :: []) ata
          = ({ c with gridJobs := updateAssoc c.gridJobs jobId c9Gj1 },
              Except.error e) :=
  claim_C9_add_tasks_not_atomic_on_error c9Gj0 c9Gj1 [⟨0, "a"⟩] [] ⟨-1, "b"⟩
    (by decide) (by decide) (Or.inr (by decide))

lemma lookup_cons {α β : Type} [BEq α] [LawfulBEq α] [DecidableEq α] (k a : α) (b : β)
    (rest : List (α × β)) :
    ((a, b) :: rest).lookup k = if k = a then some b else rest.lookup k := by
  by_cases h : k = a
  · subst h
    simp [List.lookup]
  · have hb : (k == a) = false := by simp [h]
    simp [List.lookup, hb, h]

lemma updateAssoc_cons {κ α : Type} [DecidableEq κ] (kv : κ × α) (rest : List (κ × α))
    (k : κ) (v : α) :
    updateAssoc (kv :: rest) k v
      = (if kv.1 = k then (k, v) else kv) :: updateAssoc rest k v := rfl

lemma lookup_isSome_iff {α β : Type} [BEq α] [LawfulBEq α] [DecidableEq α]
    (l : List (α × β)) (k : α) :
    (l.lookup k).isSome = true ↔ k ∈ l.map Prod.fst := by
  induction l with
  | nil => simp [List.lookup]
  | cons kv rest ih =>
    obtain ⟨a, b⟩ := kv
    rw [lookup_cons]
    by_cases h : k = a
    · subst h
      simp
    · simp [h, ih]

lemma lookup_mem {α β : Type} [BEq α] [LawfulBEq α] [DecidableEq α]
    {l : List (α × β)} {k : α} {v : β} (h : l.lookup k = some v) : (k, v) ∈ l := by
  induction l with
  | nil => simp [List.lookup] at h
  | cons kv rest ih =>
    obtain ⟨a, b⟩ := kv
    rw [lookup_cons] at h
    by_cases hk : k = a
    · subst hk
      rw [if_pos rfl] at h
      injection h with hbv
      subst hbv
      exact List.mem_cons_self _ _
    · rw [if_neg hk] at h
      exact List.mem_cons_of_mem _ (ih h)

lemma lookup_of_mem_nodup {α β : Type} [BEq α] [LawfulBEq α] [DecidableEq α]
    {l : List (α × β)} {k : α} {v : β} (hm : (k, v) ∈ l)
    (hn : (l.map Prod.fst).Nodup) : l.lookup k = some v := by
  induction l with
  | nil => simp at hm
  | cons kv rest ih =>
    obtain ⟨a, b⟩ := kv
    simp only [List.map_cons, List.nodup_cons] at hn
    rcases List.mem_cons.mp hm with heq | hmem
    · injection heq with h1 h2
      subst h1
      subst h2
      rw [lookup_cons, if_pos rfl]
    · have hk : k ≠ a := by
        intro hk
        subst hk
        exact hn.1 (by simpa using List.mem_map_of_mem Prod.fst hmem)
      rw [lookup_cons, if_neg hk]
      exact ih hmem hn.2

lemma updateAssoc_map_fst {κ α : Type} [DecidableEq κ] (l : List (κ × α)) (k : κ) (v : α) :
    (updateAssoc l k v).map Prod.fst = l.map Prod.fst := by
  induction l with
  | nil => rfl
  | cons kv rest ih =>
    rw [updateAssoc_cons]
    by_cases h : kv.1 = k
    · simp [h, ih]
    · simp [h, ih]

lemma lookup_updateAssoc_ne {κ α : Type} [DecidableEq κ] [BEq κ] [LawfulBEq κ]
    (l : List (κ × α)) (k : κ) (v : α) (j : κ) (h : j ≠ k) :
    (updateAssoc l k v).lookup j = l.lookup j := by
  induction l with
  | nil => rfl
  | cons kv rest ih =>
    obtain ⟨a, b⟩ := kv
    rw [updateAssoc_cons]
    by_cases ha : a = k
    · subst ha
      rw [if_pos rfl, lookup_cons, lookup_cons, if_neg h, if_neg h]
      exact ih
    · rw [if_neg ha, lookup_cons, lookup_cons]
      by_cases hj : j = a
      · rw [if_pos hj, if_pos hj]
      · rw [if_neg hj, if_neg hj]
        exact ih

lemma lookup_updateAssoc_self {κ α : Type} [DecidableEq κ] [BEq κ] [LawfulBEq κ]
    (l : List (κ × α)) (k : κ) (v : α) (h : (l.lookup k).isSome = true) :
    (updateAssoc l k v).lookup k = some v := by
  induction l with
  | nil => simp [List.lookup] at h
  | cons kv rest ih =>
    obtain ⟨a, b⟩ := kv
    rw [updateAssoc_cons]
    by_cases ha : a = k
    · subst ha
      rw [if_pos rfl, lookup_cons, if_pos rfl]
    · have hk : k ≠ a := fun e => ha e.symm
      rw [lookup_cons, if_neg hk] at h
      rw [if_neg ha, lookup_cons, if_neg hk]
      exact ih h

lemma mem_updateAssoc {κ α : Type} [DecidableEq κ] {l : List (κ × α)} {k : κ} {v : α}
    {kv : κ × α} (h : kv ∈ updateAssoc l k v) : kv = (k, v) ∨ kv ∈ l := by
  unfold updateAssoc at h
  obtain ⟨orig, hmem, heq⟩ := List.mem_map.mp h
  by_cases ho : orig.1 = k
  · left
    rw [← heq]
    simp [ho]
  · right
    rw [← heq]
    simp only [ho, if_false]
    exact hmem

lemma lookup_append {α β : Type} [BEq α] [LawfulBEq α] [DecidableEq α]
    (l₁ l₂ : List (α × β)) (k : α) :
    (l₁ ++ l₂).lookup k
      = match l₁.lookup k with
        | some v => some v
        | none => l₂.lookup k := by
  induction l₁ with
  | nil => rfl
  | cons kv rest ih =>
    obtain ⟨a, b⟩ := kv
    rw [List.cons_append, lookup_cons, lookup_cons]
    by_cases hk : k = a
    · rw [if_pos hk, if_pos hk]
    · rw [if_neg hk, if_neg hk]
      exact ih

lemma lookup_isSome_of_map_fst_eq {α β γ : Type} [BEq α] [LawfulBEq α]
    [DecidableEq α] {l₁ : List (α × β)} {l₂ : List (α × γ)} (k : α)
    (h : l₁.map Prod.fst = l₂.map Prod.fst) :
    (l₁.lookup k).isSome = (l₂.lookup k).isSome := by
  rw [Bool.eq_iff_iff, lookup_isSome_iff, lookup_isSome_iff, h]

/-- The per-grid-job facts maintained by the coordinator: task keys are
distinct, queued task ids are non-negative, and the worker counter is
non-negative. -/
def GoodJob (gj : GridJob) : Prop :=
  (gj.allTasks.map Prod.fst).Nodup
  ∧ (∀ t ∈ gj.unassignedTasks, 0 ≤ t.taskId)
  ∧ 0 ≤ gj.numCurrentGridWorkers

/-- The coordinator state invariant: distinct keys in each job map,
disjointness of the two maps, and per-job facts. -/
def Inv (c : Coordinator) : Prop :=
  (c.gridJobs.map Prod.fst).Nodup
  ∧ (c.simpleJobs.map Prod.fst).Nodup
  ∧ (∀ k, (c.gridJobs.lookup k).isSome = true
      → (c.simpleJobs.lookup k).isSome = false)
  ∧ (∀ kv ∈ c.gridJobs, GoodJob (kv : String × GridJob).2)

lemma inv_init : Inv Coordinator.init := by
  refine ⟨List.nodup_nil, List.nodup_nil, ?_, ?_⟩
  · intro k hk
    simp [Coordinator.init, List.lookup] at hk
  · intro kv hkv
    simp [Coordinator.init] at hkv

lemma addTasksHelper_good (l : List GridTaskMsg) :
    ∀ gj : GridJob, GoodJob gj → GoodJob (addTasksToGridJobHelper gj l).1 := by
  induction l with
  | nil => intro gj h; exact h
  | cons t rest ih =>
    intro gj h
    simp only [addTasksToGridJobHelper]
    by_cases hd : (gj.allTasks.lookup t.taskId).isSome = true
    · rw [if_pos hd]
      exact ih gj h
    · rw [if_neg hd]
      by_cases hseal : gj.allTasksAdded = true
      · rw [if_pos hseal]
        exact h
      · rw [if_neg hseal]
        by_cases hneg2 : t.taskId < 0
        · rw [if_pos hneg2]
          exact h
        · rw [if_neg hneg2]
          apply ih
          obtain ⟨hk, hq, hw⟩ := h
          have hnotmem : t.taskId ∉ gj.allTasks.map Prod.fst := by
            rw [← lookup_isSome_iff]
            simp [Bool.not_eq_true] at hd
            simp [hd]
          refine ⟨?_, ?_, hw⟩
          · simp only [List.map_append, List.map_cons, List.map_nil]
            simp [List.nodup_append, hk, hnotmem]
          · intro u hu
            rcases List.mem_append.mp hu with h1 | h2
            · exact hq u h1
            · simp at h2
              subst h2
              simp
              omega

lemma inv_replace_grid {c : Coordinator} (h : Inv c) (k : String)
    (new : GridJob) (hgood : GoodJob new) :
    Inv { c with gridJobs := updateAssoc c.gridJobs k new } := by
  obtain ⟨hg, hs, hdisj, hjobs⟩ := h
  refine ⟨?_, hs, ?_, ?_⟩
  · rw [updateAssoc_map_fst]
    exact hg
  · intro j hj
    apply hdisj j
    rw [← hj]
    exact (lookup_isSome_of_map_fst_eq j (updateAssoc_map_fst c.gridJobs k new)).symm
  · intro kv hkv
    rcases mem_updateAssoc hkv with heq | hmem
    · subst heq
      exact hgood
    · exact hjobs kv hmem

lemma inv_replace_simple {c : Coordinator} (h : Inv c) (k : String)
    (new : SimpleJob) :
    Inv { c with simpleJobs := updateAssoc c.simpleJobs k new } := by
  obtain ⟨hg, hs, hdisj, hjobs⟩ := h
  refine ⟨hg, ?_, ?_, hjobs⟩
  · rw [updateAssoc_map_fst]
    exact hs
  · intro j hj
    rw [lookup_isSome_of_map_fst_eq j (updateAssoc_map_fst c.simpleJobs k new)]
    exact hdisj j hj

lemma inv_append_grid {c : Coordinator} (h : Inv c) (k : String) (gj : GridJob)
    (hkg : (c.gridJobs.lookup k).isSome = false)
    (hks : (c.simpleJobs.lookup k).isSome = false)
    (hgood : GoodJob gj) :
    Inv { c with gridJobs := c.gridJobs ++ [(k, gj)] } := by
  obtain ⟨hg, hs, hdisj, hjobs⟩ := h
  have hknot : k ∉ c.gridJobs.map Prod.fst := by
    rw [← lookup_isSome_iff, hkg]
    simp
  refine ⟨?_, hs, ?_, ?_⟩
  · simp [List.nodup_append, hg, hknot]
  · intro j hj
    rw [lookup_append] at hj
    cases hcase : c.gridJobs.lookup j with
    | some v =>
      exact hdisj j (by rw [hcase]; rfl)
    | none =>
      rw [hcase] at hj
      simp only at hj
      have hjk : j = k := by
        by_contra hne
        rw [lookup_cons, if_neg hne] at hj
        simp [List.lookup] at hj
      subst hjk
      exact hks
  · intro kv hkv
    rcases List.mem_append.mp hkv with h1 | h2
    · exact hjobs kv h1
    · simp at h2
      subst h2
      exact hgood

lemma inv_append_simple {c : Coordinator} (h : Inv c) (k : String)
    (sj : SimpleJob)
    (hkg : (c.gridJobs.lookup k).isSome = false)
    (hks : (c.simpleJobs.lookup k).isSome = false) :
    Inv { c with simpleJobs := c.simpleJobs ++ [(k, sj)] } := by
  obtain ⟨hg, hs, hdisj, hjobs⟩ := h
  have hknot : k ∉ c.simpleJobs.map Prod.fst := by
    rw [← lookup_isSome_iff, hks]
    simp
  refine ⟨hg, ?_, ?_, hjobs⟩
  · simp [List.nodup_append, hs, hknot]
  · intro j hj
    rw [lookup_append]
    have hjs := hdisj j hj
    have hnone : c.simpleJobs.lookup j = none := by
      cases hcase : c.simpleJobs.lookup j with
      | none => rfl
      | some v => rw [hcase] at hjs; simp at hjs
    rw [hnone]
    have hjk : j ≠ k := by
      intro he
      subst he
      rw [hj] at hkg
      simp at hkg
    simp only
    rw [lookup_cons, if_neg hjk]
    rfl

lemma goodJob_update_task (gj : GridJob) (taskId : Int) (updated : GridTask)
    (h : GoodJob gj) :
    GoodJob { gj with allTasks := updateAssoc gj.allTasks taskId updated } := by
  refine ⟨?_, h.2.1, h.2.2⟩
  show ((updateAssoc gj.allTasks taskId updated).map Prod.fst).Nodup
  rw [updateAssoc_map_fst]
  exact h.1

lemma inv_addJob (c : Coordinator) (request : Job) (h : Inv c) :
    Inv (addJob c request).1 := by
  unfold addJob
  by_cases h1 : request.jobId = ""
  · rw [if_pos h1]
    exact h
  rw [if_neg h1]
  by_cases h2 : ((request.jobId.toList.any fun ch => ¬ jobIdValidCharacter ch)
      ∨ (request.jobFriendlyName.toList.any fun ch => ¬ jobIdValidCharacter ch))
  · rw [if_pos h2]
    exact h
  rw [if_neg h2]
  by_cases h3 : ((c.gridJobs.lookup request.jobId).isSome = true
      ∨ (c.simpleJobs.lookup request.jobId).isSome = true)
  · rw [if_pos h3]
    exact h
  rw [if_neg h3]
  by_cases h4 : request.priority ≤ 0
  · rw [if_pos h4]
    exact h
  rw [if_neg h4]
  rw [not_or] at h3
  have hg : (c.gridJobs.lookup request.jobId).isSome = false := by
    cases hcase : (c.gridJobs.lookup request.jobId).isSome
    · rfl
    · exact absurd hcase h3.1
  have hs : (c.simpleJobs.lookup request.jobId).isSome = false := by
    cases hcase : (c.simpleJobs.lookup request.jobId).isSome
    · rfl
    · exact absurd hcase h3.2
  cases hspec : request.spec with
  | pyCommand =>
    exact inv_append_simple h request.jobId _ hg hs
  | pyFunction =>
    exact inv_append_simple h request.jobId _ hg hs
  | pyGrid tasks allTasksAdded =>
    dsimp only
    have hgood0 : GoodJob ⟨request, [], [], false, 0⟩ := by
      refine ⟨List.nodup_nil, ?_, le_refl 0⟩
      intro t ht
      simp at ht
    have hgood1 := addTasksHelper_good tasks ⟨request, [], [], false, 0⟩ hgood0
    cases hres : addTasksToGridJobHelper ⟨request, [], [], false, 0⟩ tasks with
    | mk gj1 err =>
      rw [hres] at hgood1
      cases err with
      | some e => exact h
      | none => exact inv_append_grid h request.jobId _ hg hs hgood1

lemma inv_addTasksToGridJob (c : Coordinator) (jobId : String)
    (tasks : List GridTaskMsg) (ata : Bool) (h : Inv c) :
    Inv (addTasksToGridJob c jobId tasks ata).1 := by
  unfold addTasksToGridJob
  cases hc : c.gridJobs.lookup jobId with
  | none => exact h
  | some gj =>
    dsimp only
    have hgood : GoodJob gj := h.2.2.2 _ (lookup_mem hc)
    have hgood1 := addTasksHelper_good tasks gj hgood
    cases hres : addTasksToGridJobHelper gj tasks with
    | mk gj1 err =>
      rw [hres] at hgood1
      cases err with
      | some e => exact inv_replace_grid h jobId gj1 hgood1
      | none =>
        cases ata with
        | true => exact inv_replace_grid h jobId _ hgood1
        | false => exact inv_replace_grid h jobId _ hgood1

lemma inv_updateJobStates (jobStates : List (String × ProcessState)) :
    ∀ c : Coordinator, Inv c → Inv (updateJobStates c jobStates) := by
  induction jobStates with
  | nil => intro c h; exact h
  | cons js rest ih =>
    intro c h
    show Inv (updateJobStates _ rest)
    apply ih
    cases hc : c.simpleJobs.lookup js.1 with
    | none => simpa [hc] using h
    | some sj =>
      have := inv_replace_simple h js.1 { sj with state := js.2 }
      simpa [hc] using this

lemma mem_availableJobs_inl {c : Coordinator} {k : String} {gj : GridJob}
    (h : Sum.inl (k, gj) ∈ availableJobs c) : (k, gj) ∈ c.gridJobs := by
  unfold availableJobs at h
  rcases List.mem_append.mp h with h1 | h2
  · obtain ⟨kv, hkv, heq⟩ := List.mem_map.mp h1
    injection heq with he
    subst he
    exact (List.mem_filter.mp hkv).1
  · obtain ⟨kv, hkv, heq⟩ := List.mem_map.mp h2
    simp at heq

lemma inv_getNextJob (c : Coordinator) (choice : Nat) (h : Inv c) :
    Inv (getNextJob c choice).1 := by
  unfold getNextJob
  dsimp only
  cases hget : (availableJobs c).get? (choice % (availableJobs c).length) with
  | none => exact h
  | some x =>
    cases x with
    | inl kv =>
      obtain ⟨k, gj⟩ := kv
      dsimp only
      have hmem : (k, gj) ∈ c.gridJobs :=
        mem_availableJobs_inl (List.get?_mem hget)
      have hgood : GoodJob gj := h.2.2.2 _ hmem
      apply inv_replace_grid h
      refine ⟨hgood.1, hgood.2.1, ?_⟩
      show (0 : Int) ≤ gj.numCurrentGridWorkers + 1
      have h22 := hgood.2.2
      omega
    | inr kv =>
      obtain ⟨k, sj⟩ := kv
      exact inv_replace_simple h k _

lemma inv_updateGridTask (c : Coordinator) (jobId : String) (taskId : Int)
    (processState : ProcessState) (h : Inv c) :
    Inv (updateGridTaskStateAndGetNext c jobId taskId processState).1 := by
  unfold updateGridTaskStateAndGetNext
  cases hc : c.gridJobs.lookup jobId with
  | none => exact h
  | some gj =>
    dsimp only
    have hgood : GoodJob gj := h.2.2.2 _ (lookup_mem hc)
    by_cases hearly : taskId ≠ -1 ∧ (gj.allTasks.lookup taskId).isNone = true
    · rw [if_pos hearly]
      exact h
    · rw [if_neg hearly]
      by_cases ht : taskId ≠ -1
      · cases hl : gj.allTasks.lookup taskId with
        | none =>
          exact absurd ⟨ht, by rw [hl]; rfl⟩ hearly
        | some task =>
          rw [if_pos ht]
          dsimp only
          have hgood1 := goodJob_update_task gj taskId
            { task with state := processState } hgood
          cases hq : gj.unassignedTasks with
          | cons chosenTask restTasks =>
            apply inv_replace_grid h
            refine ⟨hgood1.1, ?_, hgood1.2.2⟩
            intro u hu
            exact hgood.2.1 u (by rw [hq]; exact List.mem_cons_of_mem _ hu)
          | nil =>
            apply inv_replace_grid h
            refine ⟨hgood1.1, ?_, le_max_left 0 _⟩
            intro u hu
            simp at hu
      · rw [if_neg ht]
        cases hq : gj.unassignedTasks with
        | cons chosenTask restTasks =>
          apply inv_replace_grid h
          refine ⟨hgood.1, ?_, hgood.2.2⟩
          intro u hu
          exact hgood.2.1 u (by rw [hq]; exact List.mem_cons_of_mem _ hu)
        | nil =>
          apply inv_replace_grid h
          refine ⟨hgood.1, ?_, le_max_left 0 _⟩
          intro u hu
          simp at hu

lemma inv_step (c : Coordinator) (op : CoordOp) (h : Inv c) :
    Inv (stepCoord c op) := by
  cases op with
  | addJob request => exact inv_addJob c request h
  | addTasksToGridJob jobId tasks ata => exact inv_addTasksToGridJob c jobId tasks ata h
  | updateJobStates jobStates => exact inv_updateJobStates jobStates c h
  | getNextJob choice => exact inv_getNextJob c choice h
  | updateGridTaskStateAndGetNext jobId taskId ps => exact inv_updateGridTask c jobId taskId ps h

lemma inv_run (ops : List CoordOp) : ∀ c : Coordinator, Inv c → Inv (runCoord c ops) := by
  induction ops with
  | nil => intro c h; exact h
  | cons op rest ih => intro c h; exact ih _ (inv_step c op h)

/-- C8: in every coordinator state reachable from the initial state by any
sequence of RPCs, the num_current_grid_workers counter of every grid job is
non-negative: GetNextJob only increments it and the decrement in
UpdateGridTaskStateAndGetNext is clamped at 0. -/
theorem claim_C8_workers_never_negative (ops : List CoordOp)
    (kv : String × GridJob)
    (h : kv ∈ (runCoord Coordinator.init ops).gridJobs) :
    0 ≤ kv.2.numCurrentGridWorkers :=
  ((inv_run ops Coordinator.init inv_init).2.2.2 kv h).2.2

/-- C8 witness: after adding one grid job, its worker counter is
non-negative. -/
theorem claim_C8_workers_never_negative_witness :
    0 ≤ (("g1", (⟨⟨"g1", "g", 1, JobSpec.pyGrid [] false⟩, [], [], false, 0⟩ : GridJob))
        : String × GridJob).2.numCurrentGridWorkers :=
  claim_C8_workers_never_negative
    [CoordOp.addJob ⟨"g1", "g", 1, JobSpec.pyGrid [] false⟩] _ (by decide)

/-- C10: a job_id added as a grid job is reported UNKNOWN by
GetSimpleJobStates, indistinguishable from an id that was never added: in
any reachable state the query consults only the simple-jobs map, and the
two maps never share a key. -/
theorem claim_C10_grid_jobs_unknown_to_simple_query (ops : List CoordOp)
    (jobId otherId : String)
    (hgrid : ((runCoord Coordinator.init ops).gridJobs.lookup jobId).isSome = true)
    (hother : ((runCoord Coordinator.init ops).simpleJobs.lookup otherId).isSome
      = false) :
    getSimpleJobStates (runCoord Coordinator.init ops) [jobId]
      = [⟨ProcessStateEnum.unknown⟩]
    ∧ getSimpleJobStates (runCoord Coordinator.init ops) [jobId]
      = getSimpleJobStates (runCoord Coordinator.init ops) [otherId] := by
  have hinv := inv_run ops Coordinator.init inv_init
  have hsim := hinv.2.2.1 jobId hgrid
  have hnone : (runCoord Coordinator.init ops).simpleJobs.lookup jobId = none := by
    cases hcase : (runCoord Coordinator.init ops).simpleJobs.lookup jobId with
    | none => rfl
    | some v => rw [hcase] at hsim; simp at hsim
  have honone : (runCoord Coordinator.init ops).simpleJobs.lookup otherId = none := by
    cases hcase : (runCoord Coordinator.init ops).simpleJobs.lookup otherId with
    | none => rfl
    | some v => rw [hcase] at hother; simp at hother
  constructor
  · simp [getSimpleJobStates, hnone]
  · simp [getSimpleJobStates, hnone, honone]

/-- C10 witness: after adding grid job g1, querying its simple-job state
answers UNKNOWN, exactly as for the never-added id zz. -/
theorem claim_C10_grid_jobs_unknown_witness :
    getSimpleJobStates
        (runCoord Coordinator.init
          [CoordOp.addJob ⟨"g1", "g", 1, JobSpec.pyGrid [] false⟩]) ["g1"]
      = [⟨ProcessStateEnum.unknown⟩]
    ∧ getSimpleJobStates
        (runCoord Coordinator.init
          [CoordOp.addJob ⟨"g1", "g", 1, JobSpec.pyGrid [] false⟩]) ["g1"]
      = getSimpleJobStates
          (runCoord Coordinator.init
            [CoordOp.addJob ⟨"g1", "g", 1, JobSpec.pyGrid [] false⟩]) ["zz"] :=
  claim_C10_grid_jobs_unknown_to_simple_query
    [CoordOp.addJob ⟨"g1", "g", 1, JobSpec.pyGrid [] false⟩] "g1" "zz"
    (by decide) (by decide)

/-- The task ids currently in a grid job's unassigned deque (empty when the
job does not exist). -/
def queueIds (c : Coordinator) (jobId : String) : List Int :=
  match c.gridJobs.lookup jobId with
  | some gj => gj.unassignedTasks.map GridTask.taskId
  | none => []

/-- The ids of all tasks ever inserted into a grid job, in insertion order
(empty when the job does not exist). -/
def allTaskIds (c : Coordinator) (jobId : String) : List Int :=
  match c.gridJobs.lookup jobId with
  | some gj => gj.allTasks.map Prod.fst
  | none => []

/-- The task ids one RPC inserts into a job: the new suffix of the task-id
list. -/
def insertedDuring (c : Coordinator) (op : CoordOp) (jobId : String) : List Int :=
  (allTaskIds (stepCoord c op) jobId).drop (allTaskIds c jobId).length

/-- The task ids inserted into a job over a run of RPCs, in insertion
order. -/
def insertedTasks (jobId : String) : Coordinator → List CoordOp → List Int
  | _, [] => []
  | c, op :: ops =>
    insertedDuring c op jobId ++ insertedTasks jobId (stepCoord c op) ops

/-- The task id one RPC hands out for a job (nothing unless it is an
UpdateGridTaskStateAndGetNext for that job returning a real task). -/
def returnedDuring (c : Coordinator) (op : CoordOp) (jobId : String) : List Int :=
  match op with
  | .updateGridTaskStateAndGetNext jid tid st =>
    if jid = jobId then
      let r := (updateGridTaskStateAndGetNext c jid tid st).2
      if r.taskId = -1 then [] else [r.taskId]
    else []
  | _ => []

/-- The task ids handed out for a job over a run of RPCs, in order. -/
def returnedTasks (jobId : String) : Coordinator → List CoordOp → List Int
  | _, [] => []
  | c, op :: ops =>
    returnedDuring c op jobId ++ returnedTasks jobId (stepCoord c op) ops

lemma updateJobStates_gridJobs (jobStates : List (String × ProcessState)) :
    ∀ c : Coordinator, (updateJobStates c jobStates).gridJobs = c.gridJobs := by
  induction jobStates with
  | nil => intro c; rfl
  | cons js rest ih =>
    intro c
    show (updateJobStates _ rest).gridJobs = _
    rw [ih]
    cases hc : c.simpleJobs.lookup js.1 with
    | none => simp [hc]
    | some sj => simp [hc]

lemma addJob_gridJobs_shape (c : Coordinator) (request : Job) :
    (addJob c request).1.gridJobs = c.gridJobs
    ∨ ∃ gj2 : GridJob,
        (addJob c request).1.gridJobs = c.gridJobs ++ [(request.jobId, gj2)]
        ∧ (c.gridJobs.lookup request.jobId).isSome = false
        ∧ gj2.allTasks.map Prod.fst = gj2.unassignedTasks.map GridTask.taskId := by
  unfold addJob
  by_cases h1 : request.jobId = ""
  · rw [if_pos h1]; left; rfl
  rw [if_neg h1]
  by_cases h2 : ((request.jobId.toList.any fun ch => ¬ jobIdValidCharacter ch)
      ∨ (request.jobFriendlyName.toList.any fun ch => ¬ jobIdValidCharacter ch))
  · rw [if_pos h2]; left; rfl
  rw [if_neg h2]
  by_cases h3 : ((c.gridJobs.lookup request.jobId).isSome = true
      ∨ (c.simpleJobs.lookup request.jobId).isSome = true)
  · rw [if_pos h3]; left; rfl
  rw [if_neg h3]
  by_cases h4 : request.priority ≤ 0
  · rw [if_pos h4]; left; rfl
  rw [if_neg h4]
  rw [not_or] at h3
  have hg : (c.gridJobs.lookup request.jobId).isSome = false := by
    cases hcase : (c.gridJobs.lookup request.jobId).isSome
    · rfl
    · exact absurd hcase h3.1
  cases hspec : request.spec with
  | pyCommand => left; rfl
  | pyFunction => left; rfl
  | pyGrid tasks allTasksAdded =>
    dsimp only
    obtain ⟨newTasks, ha, hu, _, _, _, _⟩ :=
      addTasksHelper_appends tasks ⟨request, [], [], false, 0⟩
    cases hres : addTasksToGridJobHelper ⟨request, [], [], false, 0⟩ tasks with
    | mk gj1 err =>
      rw [hres] at ha hu
      cases err with
      | some e => left; rfl
      | none =>
        right
        refine ⟨_, rfl, hg, ?_⟩
        show (gj1.allTasks.map Prod.fst) = gj1.unassignedTasks.map GridTask.taskId
        rw [ha, hu]
        simp

lemma addTasksRpc_shape (c : Coordinator) (jobId : String)
    (tasks : List GridTaskMsg) (ata : Bool) :
    (addTasksToGridJob c jobId tasks ata).1 = c
    ∨ ∃ (gj jobX : GridJob) (newTasks : List GridTask),
        c.gridJobs.lookup jobId = some gj
        ∧ (addTasksToGridJob c jobId tasks ata).1.gridJobs
          = updateAssoc c.gridJobs jobId jobX
        ∧ jobX.allTasks = gj.allTasks ++ newTasks.map (fun t => (t.taskId, t))
        ∧ jobX.unassignedTasks = gj.unassignedTasks ++ newTasks := by
  unfold addTasksToGridJob
  cases hc : c.gridJobs.lookup jobId with
  | none => left; rfl
  | some gj =>
    dsimp only
    right
    obtain ⟨newTasks, ha, hu, _, _, _, _⟩ := addTasksHelper_appends tasks gj
    cases hres : addTasksToGridJobHelper gj tasks with
    | mk gj1 err =>
      rw [hres] at ha hu
      cases err with
      | some e => exact ⟨gj, gj1, newTasks, rfl, rfl, ha, hu⟩
      | none =>
        cases ata with
        | true => exact ⟨gj, _, newTasks, rfl, rfl, ha, hu⟩
        | false => exact ⟨gj, gj1, newTasks, rfl, rfl, ha, hu⟩

lemma allTaskIds_congr {c₁ c₂ : Coordinator} (jobId : String)
    (h : c₁.gridJobs.lookup jobId = c₂.gridJobs.lookup jobId) :
    allTaskIds c₁ jobId = allTaskIds c₂ jobId := by
  unfold allTaskIds
  rw [h]

lemma queueIds_congr {c₁ c₂ : Coordinator} (jobId : String)
    (h : c₁.gridJobs.lookup jobId = c₂.gridJobs.lookup jobId) :
    queueIds c₁ jobId = queueIds c₂ jobId := by
  unfold queueIds
  rw [h]

lemma updateGrid_shape (c : Coordinator) (jid : String) (tid : Int)
    (st : ProcessState) :
    ((updateGridTaskStateAndGetNext c jid tid st).1 = c
      ∧ (updateGridTaskStateAndGetNext c jid tid st).2.taskId = -1)
    ∨ ∃ gj gjAfter : GridJob,
        c.gridJobs.lookup jid = some gj
        ∧ (updateGridTaskStateAndGetNext c jid tid st).1.gridJobs
          = updateAssoc c.gridJobs jid gjAfter
        ∧ gjAfter.allTasks.map Prod.fst = gj.allTasks.map Prod.fst
        ∧ ((∃ chosen rest, gj.unassignedTasks = chosen :: rest
              ∧ gjAfter.unassignedTasks = rest
              ∧ (updateGridTaskStateAndGetNext c jid tid st).2.taskId
                = chosen.taskId)
          ∨ (gj.unassignedTasks = [] ∧ gjAfter.unassignedTasks = []
              ∧ (updateGridTaskStateAndGetNext c jid tid st).2.taskId = -1)) := by
  unfold updateGridTaskStateAndGetNext
  cases hc : c.gridJobs.lookup jid with
  | none => left; exact ⟨rfl, rfl⟩
  | some gj =>
    dsimp only
    by_cases hearly : tid ≠ -1 ∧ (gj.allTasks.lookup tid).isNone = true
    · rw [if_pos hearly]
      left
      exact ⟨rfl, rfl⟩
    · rw [if_neg hearly]
      right
      by_cases ht : tid ≠ -1
      · cases hl : gj.allTasks.lookup tid with
        | none => exact absurd ⟨ht, by rw [hl]; rfl⟩ hearly
        | some task =>
          rw [if_pos ht]
          dsimp only
          cases hq : gj.unassignedTasks with
          | cons chosen rest =>
            refine ⟨gj, _, rfl, rfl, ?_, Or.inl ⟨chosen, rest, hq, rfl, rfl⟩⟩
            show ((updateAssoc gj.allTasks tid _).map Prod.fst) = _
            rw [updateAssoc_map_fst]
          | nil =>
            refine ⟨gj, _, rfl, rfl, ?_, Or.inr ⟨hq, rfl, rfl⟩⟩
            show ((updateAssoc gj.allTasks tid _).map Prod.fst) = _
            rw [updateAssoc_map_fst]
      · rw [if_neg ht]
        cases hq : gj.unassignedTasks with
        | cons chosen rest =>
          exact ⟨gj, _, rfl, rfl, rfl, Or.inl ⟨chosen, rest, hq, rfl, rfl⟩⟩
        | nil =>
          exact ⟨gj, _, rfl, rfl, rfl, Or.inr ⟨hq, rfl, rfl⟩⟩

lemma ids_updateAssoc_same (c : Coordinator) (k : String) (gj new : GridJob)
    (hk : c.gridJobs.lookup k = some gj)
    (ha : new.allTasks = gj.allTasks) (hu : new.unassignedTasks = gj.unassignedTasks)
    (jobId : String) :
    allTaskIds { c with gridJobs := updateAssoc c.gridJobs k new } jobId
      = allTaskIds c jobId
    ∧ queueIds { c with gridJobs := updateAssoc c.gridJobs k new } jobId
      = queueIds c jobId := by
  by_cases hj : jobId = k
  · subst hj
    have hafter : (updateAssoc c.gridJobs jobId new).lookup jobId = some new :=
      lookup_updateAssoc_self _ _ _ (by rw [hk]; rfl)
    unfold allTaskIds queueIds
    dsimp only
    rw [hafter, hk]
    dsimp only
    rw [ha, hu]
    exact ⟨rfl, rfl⟩
  · have hne := lookup_updateAssoc_ne c.gridJobs k new jobId hj
    unfold allTaskIds queueIds
    dsimp only
    rw [hne]
    exact ⟨rfl, rfl⟩

lemma getNext_shape (c : Coordinator) (choice : Nat) (h : Inv c) :
    (getNextJob c choice).1 = c
    ∨ (∃ k : String, ∃ sj1 : SimpleJob,
        (getNextJob c choice).1
          = { c with simpleJobs := updateAssoc c.simpleJobs k sj1 })
    ∨ ∃ (k : String) (gj gj1 : GridJob),
        c.gridJobs.lookup k = some gj
        ∧ (getNextJob c choice).1
          = { c with gridJobs := updateAssoc c.gridJobs k gj1 }
        ∧ gj1.allTasks = gj.allTasks
        ∧ gj1.unassignedTasks = gj.unassignedTasks := by
  unfold getNextJob
  dsimp only
  cases hget : (availableJobs c).get? (choice % (availableJobs c).length) with
  | none => left; rfl
  | some x =>
    cases x with
    | inl kv =>
      obtain ⟨k, gj⟩ := kv
      right; right
      have hmem : (k, gj) ∈ c.gridJobs :=
        mem_availableJobs_inl (List.get?_mem hget)
      have hk : c.gridJobs.lookup k = some gj := lookup_of_mem_nodup hmem h.1
      exact ⟨k, gj, _, hk, rfl, rfl, rfl⟩
    | inr kv =>
      obtain ⟨k, sj⟩ := kv
      right; left
      exact ⟨k, _, rfl⟩

lemma step_fifo (c : Coordinator) (op : CoordOp) (jobId : String) (h : Inv c) :
    ∃ delta : List Int,
      allTaskIds (stepCoord c op) jobId = allTaskIds c jobId ++ delta
      ∧ returnedDuring c op jobId ++ queueIds (stepCoord c op) jobId
        = queueIds c jobId ++ delta := by
  cases op with
  | addJob request =>
    simp only [stepCoord]
    rcases addJob_gridJobs_shape c request with heq | ⟨gj2, heq, hfree, hids⟩
    · have hsame : (addJob c request).1.gridJobs.lookup jobId
          = c.gridJobs.lookup jobId := by rw [heq]
      refine ⟨[], ?_, ?_⟩
      · rw [allTaskIds_congr jobId hsame, List.append_nil]
      · show [] ++ _ = _
        rw [queueIds_congr jobId hsame, List.nil_append, List.append_nil]
    · by_cases hj : jobId = request.jobId
      · subst hj
        have hnone : c.gridJobs.lookup request.jobId = none := by
          cases hcase : c.gridJobs.lookup request.jobId with
          | none => rfl
          | some v => rw [hcase] at hfree; simp at hfree
        have hafter : (addJob c request).1.gridJobs.lookup request.jobId
            = some gj2 := by
          rw [heq, lookup_append, hnone]
          dsimp only
          rw [lookup_cons, if_pos rfl]
        refine ⟨gj2.allTasks.map Prod.fst, ?_, ?_⟩
        · unfold allTaskIds
          rw [hafter, hnone]
          simp only [List.nil_append]
        · show [] ++ _ = _
          unfold queueIds
          rw [hafter, hnone]
          simp only [List.nil_append]
          exact hids.symm
      · have hsame : (addJob c request).1.gridJobs.lookup jobId
            = c.gridJobs.lookup jobId := by
          rw [heq, lookup_append]
          cases hcase : c.gridJobs.lookup jobId with
          | some v => rfl
          | none =>
            dsimp only
            rw [lookup_cons, if_neg hj]
            rfl
        refine ⟨[], ?_, ?_⟩
        · rw [allTaskIds_congr jobId hsame, List.append_nil]
        · show [] ++ _ = _
          rw [queueIds_congr jobId hsame, List.nil_append, List.append_nil]
  | addTasksToGridJob jid tasks ata =>
    simp only [stepCoord]
    rcases addTasksRpc_shape c jid tasks ata with heq
      | ⟨gj, jobX, newTasks, hc, hgr, ha, hu⟩
    · have hsame : (addTasksToGridJob c jid tasks ata).1.gridJobs.lookup jobId
          = c.gridJobs.lookup jobId := by rw [heq]
      refine ⟨[], ?_, ?_⟩
      · rw [allTaskIds_congr jobId hsame, List.append_nil]
      · show [] ++ _ = _
        rw [queueIds_congr jobId hsame, List.nil_append, List.append_nil]
    · by_cases hj : jobId = jid
      · subst hj
        have hafter : (addTasksToGridJob c jobId tasks ata).1.gridJobs.lookup jobId
            = some jobX := by
          rw [hgr]
          exact lookup_updateAssoc_self _ _ _ (by rw [hc]; rfl)
        refine ⟨newTasks.map GridTask.taskId, ?_, ?_⟩
        · unfold allTaskIds
          rw [hafter, hc]
          dsimp only
          rw [ha]
          simp [List.map_map]
        · show [] ++ _ = _
          unfold queueIds
          rw [hafter, hc]
          dsimp only
          rw [hu]
          simp
      · have hsame : (addTasksToGridJob c jid tasks ata).1.gridJobs.lookup jobId
            = c.gridJobs.lookup jobId := by
          rw [hgr]
          exact lookup_updateAssoc_ne _ _ _ _ hj
        refine ⟨[], ?_, ?_⟩
        · rw [allTaskIds_congr jobId hsame, List.append_nil]
        · show [] ++ _ = _
          rw [queueIds_congr jobId hsame, List.nil_append, List.append_nil]
  | updateJobStates jobStates =>
    simp only [stepCoord]
    have hsame : (updateJobStates c jobStates).gridJobs.lookup jobId
        = c.gridJobs.lookup jobId := by rw [updateJobStates_gridJobs]
    refine ⟨[], ?_, ?_⟩
    · rw [allTaskIds_congr jobId hsame, List.append_nil]
    · show [] ++ _ = _
      rw [queueIds_congr jobId hsame, List.nil_append, List.append_nil]
  | getNextJob choice =>
    simp only [stepCoord]
    rcases getNext_shape c choice h with heq | ⟨k, sj1, heq⟩
      | ⟨k, gj, gj1, hk, heq, ha, hu⟩
    · refine ⟨[], ?_, ?_⟩
      · rw [heq, List.append_nil]
      · show [] ++ _ = _
        rw [heq, List.nil_append, List.append_nil]
    · have hsame : (getNextJob c choice).1.gridJobs.lookup jobId
          = c.gridJobs.lookup jobId := by rw [heq]
      refine ⟨[], ?_, ?_⟩
      · rw [allTaskIds_congr jobId hsame, List.append_nil]
      · show [] ++ _ = _
        rw [queueIds_congr jobId hsame, List.nil_append, List.append_nil]
    · have hids := ids_updateAssoc_same c k gj gj1 hk ha hu jobId
      refine ⟨[], ?_, ?_⟩
      · rw [heq, hids.1, List.append_nil]
      · show [] ++ _ = _
        rw [heq, hids.2, List.nil_append, List.append_nil]
  | updateGridTaskStateAndGetNext jid tid st =>
    simp only [stepCoord]
    rcases updateGrid_shape c jid tid st with ⟨hstate, hret⟩
      | ⟨gj, gjAfter, hc, hgr, hkeys, hcase⟩
    · refine ⟨[], ?_, ?_⟩
      · rw [hstate, List.append_nil]
      · have hretd : returnedDuring c
            (CoordOp.updateGridTaskStateAndGetNext jid tid st) jobId = [] := by
          show (if jid = jobId then
              (if ((updateGridTaskStateAndGetNext c jid tid st).2).taskId = -1
                then ([] : List Int)
                else [((updateGridTaskStateAndGetNext c jid tid st).2).taskId])
            else []) = []
          by_cases hj : jid = jobId
          · rw [if_pos hj, if_pos hret]
          · rw [if_neg hj]
        rw [hretd, hstate, List.nil_append, List.append_nil]
    · by_cases hj : jid = jobId
      · subst hj
        have hafter : (updateGridTaskStateAndGetNext c jid tid st).1.gridJobs.lookup jid
            = some gjAfter := by
          rw [hgr]
          exact lookup_updateAssoc_self _ _ _ (by rw [hc]; rfl)
        rcases hcase with ⟨chosen, rest, hq, hqa, hrt⟩ | ⟨hq, hqa, hrt⟩
        · have hgood : GoodJob gj := h.2.2.2 _ (lookup_mem hc)
          have hnonneg : 0 ≤ chosen.taskId := by
            apply hgood.2.1
            rw [hq]
            exact List.mem_cons_self _ _
          refine ⟨[], ?_, ?_⟩
          · unfold allTaskIds
            rw [hafter, hc]
            dsimp only
            rw [hkeys, List.append_nil]
          · have hretd : returnedDuring c
                (CoordOp.updateGridTaskStateAndGetNext jid tid st) jid
                = [chosen.taskId] := by
              show (if jid = jid then
                  (if ((updateGridTaskStateAndGetNext c jid tid st).2).taskId = -1
                    then ([] : List Int)
                    else [((updateGridTaskStateAndGetNext c jid tid st).2).taskId])
                else []) = [chosen.taskId]
              rw [if_pos rfl, hrt, if_neg (by omega)]
            rw [hretd]
            unfold queueIds
            rw [hafter, hc]
            dsimp only
            rw [hqa, hq, List.append_nil]
            rfl
        · refine ⟨[], ?_, ?_⟩
          · unfold allTaskIds
            rw [hafter, hc]
            dsimp only
            rw [hkeys, List.append_nil]
          · have hretd : returnedDuring c
                (CoordOp.updateGridTaskStateAndGetNext jid tid st) jid = [] := by
              show (if jid = jid then
                  (if ((updateGridTaskStateAndGetNext c jid tid st).2).taskId = -1
                    then ([] : List Int)
                    else [((updateGridTaskStateAndGetNext c jid tid st).2).taskId])
                else []) = []
              rw [if_pos rfl, if_pos hrt]
            rw [hretd]
            unfold queueIds
            rw [hafter, hc]
            dsimp only
            rw [hqa, hq, List.append_nil, List.nil_append]
      · have hsame : (updateGridTaskStateAndGetNext c jid tid st).1.gridJobs.lookup jobId
            = c.gridJobs.lookup jobId := by
          rw [hgr]
          exact lookup_updateAssoc_ne _ _ _ _ (fun e => hj e.symm)
        have hretd : returnedDuring c
            (CoordOp.updateGridTaskStateAndGetNext jid tid st) jobId = [] := by
          show (if jid = jobId then
              (if ((updateGridTaskStateAndGetNext c jid tid st).2).taskId = -1
                then ([] : List Int)
                else [((updateGridTaskStateAndGetNext c jid tid st).2).taskId])
            else []) = []
          rw [if_neg hj]
        refine ⟨[], ?_, ?_⟩
        · rw [allTaskIds_congr jobId hsame, List.append_nil]
        · rw [hretd, queueIds_congr jobId hsame, List.nil_append, List.append_nil]

lemma run_fifo (ops : List CoordOp) : ∀ c : Coordinator, Inv c → ∀ jobId : String,
    returnedTasks jobId c ops ++ queueIds (runCoord c ops) jobId
      = queueIds c jobId ++ insertedTasks jobId c ops := by
  induction ops with
  | nil =>
    intro c h jobId
    simp [returnedTasks, insertedTasks, runCoord]
  | cons op rest ih =>
    intro c h jobId
    obtain ⟨delta, hall, hret⟩ := step_fifo c op jobId h
    have hdelta : insertedDuring c op jobId = delta := by
      unfold insertedDuring
      rw [hall, List.drop_left]
    show (returnedDuring c op jobId ++ returnedTasks jobId (stepCoord c op) rest)
        ++ queueIds (runCoord (stepCoord c op) rest) jobId
      = queueIds c jobId
        ++ (insertedDuring c op jobId ++ insertedTasks jobId (stepCoord c op) rest)
    rw [hdelta]
    have hih := ih (stepCoord c op) (inv_step c op h) jobId
    rw [List.append_assoc, hih, ← List.append_assoc, hret, List.append_assoc]

lemma run_allTaskIds (ops : List CoordOp) : ∀ c : Coordinator, Inv c →
    ∀ jobId : String,
    allTaskIds (runCoord c ops) jobId
      = allTaskIds c jobId ++ insertedTasks jobId c ops := by
  induction ops with
  | nil =>
    intro c h jobId
    simp [insertedTasks, runCoord]
  | cons op rest ih =>
    intro c h jobId
    obtain ⟨delta, hall, _⟩ := step_fifo c op jobId h
    have hdelta : insertedDuring c op jobId = delta := by
      unfold insertedDuring
      rw [hall, List.drop_left]
    show allTaskIds (runCoord (stepCoord c op) rest) jobId
      = allTaskIds c jobId
        ++ (insertedDuring c op jobId ++ insertedTasks jobId (stepCoord c op) rest)
    rw [hdelta, ih (stepCoord c op) (inv_step c op h) jobId, hall, List.append_assoc]

lemma allTaskIds_nodup (c : Coordinator) (h : Inv c) (jobId : String) :
    (allTaskIds c jobId).Nodup := by
  unfold allTaskIds
  cases hl : c.gridJobs.lookup jobId with
  | none => exact List.nodup_nil
  | some gj => exact (h.2.2.2 _ (lookup_mem hl)).1

lemma update_empty_queue (c : Coordinator) (jobId : String) (gj : GridJob)
    (tid : Int) (st : ProcessState)
    (hl : c.gridJobs.lookup jobId = some gj) (hq : gj.unassignedTasks = []) :
    ((updateGridTaskStateAndGetNext c jobId tid st).2).taskId = -1 := by
  rcases updateGrid_shape c jobId tid st with ⟨_, hret⟩
    | ⟨gj2, gjA, hc, _, _, hcase⟩
  · exact hret
  · rw [hl] at hc
    injection hc with he
    subst he
    rcases hcase with ⟨chosen, rest, hq2, _, _⟩ | ⟨_, _, hrt⟩
    · rw [hq] at hq2
      cases hq2
    · exact hrt

/-- C3: for every grid job, the ids handed out by repeated
UpdateGridTaskStateAndGetNext calls, followed by the ids still queued, are
exactly the ids ever added to the job in FIFO insertion order (so each task
is dispatched at most once, in insertion order, and exactly once when the
queue has drained); the inserted ids are pairwise distinct; and a call on a
job whose unassigned queue is empty answers the −1 stop signal. -/
theorem claim_C3_task_dispatch_fifo (ops : List CoordOp) (jobId : String) :
    returnedTasks jobId Coordinator.init ops
        ++ queueIds (runCoord Coordinator.init ops) jobId
      = insertedTasks jobId Coordinator.init ops
    ∧ (insertedTasks jobId Coordinator.init ops).Nodup
    ∧ ∀ (gj : GridJob) (tid : Int) (st : ProcessState),
        (runCoord Coordinator.init ops).gridJobs.lookup jobId = some gj →
        gj.unassignedTasks = [] →
        ((updateGridTaskStateAndGetNext (runCoord Coordinator.init ops)
            jobId tid st).2).taskId = -1 := by
  have h1 := run_fifo ops Coordinator.init inv_init jobId
  have h2 := run_allTaskIds ops Coordinator.init inv_init jobId
  have hq0 : queueIds Coordinator.init jobId = [] := rfl
  have ha0 : allTaskIds Coordinator.init jobId = [] := rfl
  refine ⟨?_, ?_, ?_⟩
  · rw [hq0, List.nil_append] at h1
    exact h1
  · have hnodup := allTaskIds_nodup (runCoord Coordinator.init ops)
      (inv_run ops Coordinator.init inv_init) jobId
    rw [h2, ha0, List.nil_append] at hnodup
    exact hnodup
  · intro gj tid st hl hqe
    exact update_empty_queue _ _ gj tid st hl hqe

/-- The RPC sequence of the C3 witness: a grid job with one task, sealed at
submission, then one worker poll that drains the queue. -/
def c3ops : List CoordOp :=
  [CoordOp.addJob ⟨"g1", "g", 1, JobSpec.pyGrid [⟨0, "a"⟩] true⟩,
    CoordOp.updateGridTaskStateAndGetNext "g1" (-1) ⟨ProcessStateEnum.succeeded⟩]

/-- C3 witness: after the single task of g1 has been dispatched, another
poll answers task_id −1. -/
theorem claim_C3_task_dispatch_fifo_witness :
    ((updateGridTaskStateAndGetNext (runCoord Coordinator.init c3ops) "g1" 0
        ⟨ProcessStateEnum.succeeded⟩).2).taskId = -1 :=
  (claim_C3_task_dispatch_fifo c3ops "g1").2.2
    ⟨⟨"g1", "g", 1, JobSpec.pyGrid [] true⟩,
      [(0, ⟨0, "a", ⟨ProcessStateEnum.runRequested⟩⟩)], [], true, 0⟩ 0
    ⟨ProcessStateEnum.succeeded⟩ (by decide) rfl
